import Mathlib

/-!
# forms-api: status transitions, urgency classification and listing queries

A shallow embedding of `internal/handlers/handlers.go`.

* Go strings are Lean strings (sequences of Unicode scalar values); byte strings
  that are not valid UTF-8 are outside the model.
* `int` is the 64-bit machine integer of the usual build targets; values are
  `Int` and the one multiplication that can leave the range is wrapped by
  `wrapInt64`.
* `float64` is modelled value by value: finite doubles, the two infinities and
  NaN, with every operation rounded to nearest, ties to even.
* The record store is a map from id to record; the statement a handler hands to
  `db.Exec` is kept next to the store it produces, and `db.Exec` may return an
  error (the store cannot be reached, the request context has expired).
* `logger.Fatal` ends the process (zap writes the entry and calls `os.Exit(1)`);
  a handler run is therefore a `Run`: either `exited` or `done` with a value.
-/

namespace Forms

/-! ## Runs, records and the store -/

/-- Result of running code that may call `logger.Fatal`. -/
inductive Run (α : Type) where
  | exited : Run α
  | done : α → Run α

/-- Row of table `forms` (struct `Form` of `dto.go`); times are clock ticks. -/
structure Form where
  ID : String
  Question : String
  Answer : Option String
  Urgency : Option String
  Status : String
  CreatedAt : Nat
  UpdatedAt : Nat

/-- The record store: at most one row per id. -/
abbrev Store := String → Option Form

/-- The two statements the handlers pass to `db.Exec`. -/
inductive DbWrite where
  | insert (row : Form)
  | update (id : String) (answer urgency : Option String) (status : String) (now : Nat)

/-- What a handler leaves behind: the JSON reply (status code and its single
key/value pair), the statement it issued, if any, and the store afterwards. -/
structure Reply where
  code : Nat
  key : String
  value : String
  write : Option DbWrite
  store : Store

/-! ## Status transitions (`UpdateForm`, the `validTransitions` map) -/

/-- The map literal `validTransitions`; a key that is absent yields the nil slice. -/
def validTransitions (current : String) : List String :=
  if current = "draft" then ["closed", "filled"]
  else if current = "filled" then ["closed", "reviewed"]
  else if current = "reviewed" then ["closed"]
  else if current = "closed" then ["draft"]
  else []

/-- The check `slices.Contains(validTransitions[currentStatus], req.Status)`. -/
def allowed (currentStatus requested : String) : Bool :=
  (validTransitions currentStatus).contains requested

/-- The four statuses of the lifecycle. -/
def statuses : List String := ["draft", "filled", "reviewed", "closed"]

/-- The six edges of the transition table, as the specification lists them. -/
def transitionTable : List (String × String) :=
  [("draft", "closed"), ("draft", "filled"), ("filled", "closed"),
   ("filled", "reviewed"), ("reviewed", "closed"), ("closed", "draft")]

/-! ## `float64` arithmetic

A finite `float64` is an integer number of units of 2^-1074, the spacing of the
subnormal numbers; every finite double is such a number. The sign of zero is
not kept: no comparison tells the two zeros apart. Operations round to nearest,
ties to even, as the hardware does; the compiler is taken not to fuse a
multiplication with the addition that follows it (the default on amd64). -/

/-- A `float64` value. -/
inductive F64 where
  | finite (units : Int)
  | posInf
  | negInf
  | nan
  deriving DecidableEq

/-- Division of naturals rounded to the nearest integer, ties to even. -/
def roundHalfEven (a d : Nat) : Nat :=
  let q := a / d
  let r := a % d
  if 2 * r < d then q
  else if 2 * r > d then q + 1
  else if q % 2 = 0 then q else q + 1

/-- The position of the leading bit of `n`, by halving; `fuel` bounds the steps. -/
def log2Fuel : Nat → Nat → Nat
  | 0, _ => 0
  | fuel + 1, n => if n < 2 then 0 else log2Fuel fuel (n / 2) + 1

/-- The magnitude `a / den` (in units of 2^-1074) rounded to 53 significant
bits; below 2^53 units every integer is a double. -/
def roundMagnitude (a den : Nat) : Nat :=
  let fl := a / den
  if fl < 2 ^ 53 then roundHalfEven a den
  else
    let shift := log2Fuel fl fl - 52
    roundHalfEven a (den * 2 ^ shift) * 2 ^ shift

/-- The double nearest to the rational `num / den`; a magnitude that rounds to
2^1024 or more overflows to an infinity. -/
def roundF64 (num : Int) (den : Nat) : F64 :=
  let r := roundMagnitude (num.natAbs * 2 ^ 1074) den
  if r ≥ 2 ^ 2098 then (if num < 0 then F64.negInf else F64.posInf)
  else if num < 0 then F64.finite (-(r : Int)) else F64.finite (r : Int)

/-- The double a decimal constant of the source denotes, given as a fraction. -/
def F64.ofFraction (num : Int) (den : Nat) : F64 := roundF64 num den

/-- Multiplication of `float64`. -/
def F64.mul : F64 → F64 → F64
  | .nan, _ => .nan
  | _, .nan => .nan
  | .finite a, .finite b => roundF64 (a * b) (2 ^ 2148)
  | .finite a, .posInf => if a = 0 then .nan else if a < 0 then .negInf else .posInf
  | .finite a, .negInf => if a = 0 then .nan else if a < 0 then .posInf else .negInf
  | .posInf, .finite b => if b = 0 then .nan else if b < 0 then .negInf else .posInf
  | .negInf, .finite b => if b = 0 then .nan else if b < 0 then .posInf else .negInf
  | .posInf, .posInf => .posInf
  | .posInf, .negInf => .negInf
  | .negInf, .posInf => .negInf
  | .negInf, .negInf => .posInf

/-- Addition of `float64`. -/
def F64.add : F64 → F64 → F64
  | .nan, _ => .nan
  | _, .nan => .nan
  | .finite a, .finite b => roundF64 (a + b) (2 ^ 1074)
  | .finite _, .posInf => .posInf
  | .finite _, .negInf => .negInf
  | .posInf, .finite _ => .posInf
  | .negInf, .finite _ => .negInf
  | .posInf, .posInf => .posInf
  | .negInf, .negInf => .negInf
  | .posInf, .negInf => .nan
  | .negInf, .posInf => .nan

/-- Negation of `float64`. -/
def F64.neg : F64 → F64
  | .finite a => .finite (-a)
  | .posInf => .negInf
  | .negInf => .posInf
  | .nan => .nan

/-- Subtraction of `float64`. -/
def F64.sub (x y : F64) : F64 := F64.add x (F64.neg y)

/-- The comparison `x >= y` of `float64`; false when an operand is NaN. -/
def F64.ge : F64 → F64 → Bool
  | .nan, _ => false
  | _, .nan => false
  | .posInf, _ => true
  | _, .negInf => true
  | .negInf, _ => false
  | _, .posInf => false
  | .finite a, .finite b => decide (b ≤ a)

/-- The comparison `x < y` of `float64`; false when an operand is NaN. -/
def F64.lt : F64 → F64 → Bool
  | .nan, _ => false
  | _, .nan => false
  | .posInf, _ => false
  | _, .negInf => false
  | .negInf, _ => true
  | _, .posInf => true
  | .finite a, .finite b => decide (a < b)

/-- The units of a finite `float64`; 0 for infinities and NaN. -/
def F64.units : F64 → Int
  | .finite a => a
  | _ => 0

/-- The real number a finite `float64` stands for; 0 for infinities and NaN. -/
def F64.toRat : F64 → ℚ
  | .finite a => (a : ℚ) / 2 ^ 1074
  | _ => 0

/-! ## Urgency classification (`measureUrgency`) -/

/-- One element of `output.FullResult`. -/
structure LabelScore where
  Label : String
  Score : F64

/-- What the POST to the sentiment service came to. -/
inductive CallOutcome where
  /-- `http.NewRequestWithContext` returned an error. -/
  | requestError
  /-- `client.Do` returned an error (connection failure, deadline, cancellation). -/
  | transportError
  /-- A response arrived; `body` is `none` when the JSON decoder fails and the
  decoded `full_result` otherwise. -/
  | response (statusCode : Int) (body : Option (List LabelScore))

/-- Everything outside the handlers that they read. -/
structure Env where
  /-- `os.Getenv("EMOTION_API_HOST")`. -/
  host : String
  /-- The sentiment service: URL and request body to outcome. -/
  analysis : String → String → CallOutcome
  /-- The clock (`time.Now()`, `NOW()`). -/
  now : Nat
  /-- The identifier `uuid.New().String()` hands out. -/
  newId : String
  /-- Whether `db.Exec` returns an error for a statement: the store cannot be
  reached, or the context the handler passes has expired (the 5 s context of
  `UpdateForm` is created before the sentiment call, which has no deadline of
  its own). -/
  execError : DbWrite → Bool

/-- Effect of `db.Exec` on the store; `none` when it returns an error: the
environment fails the statement, or it is an `INSERT` whose id is taken. An
`UPDATE ... WHERE id = $4` of an id without row changes nothing. -/
def execWrite (env : Env) (store : Store) (stmt : DbWrite) : Option Store :=
  if env.execError stmt then none
  else
    match stmt with
    | .insert row =>
        if (store row.ID).isSome then none
        else some (fun j => if j = row.ID then some row else store j)
    | .update id answer urgency status now =>
        some (fun j =>
          if j = id then
            (store j).map (fun f =>
              { f with Answer := answer, Urgency := urgency, Status := status, UpdatedAt := now })
          else store j)

/-- Body of the loop over `output.FullResult`; the constants 1.5, 0.2 and 1.2
are the doubles nearest to these decimals. -/
def scoreStep (score : F64) (res : LabelScore) : F64 :=
  if res.Label = "joy" ∨ res.Label = "surprise" then
    F64.sub score (F64.mul res.Score (F64.ofFraction 15 10))
  else if res.Label = "neutral" then
    F64.add score (F64.mul res.Score (F64.ofFraction 2 10))
  else if res.Label = "sadness" ∨ res.Label = "anger" ∨ res.Label = "disgust"
      ∨ res.Label = "fear" then
    F64.add score (F64.mul res.Score (F64.ofFraction 12 10))
  else score

/-- The loop over `output.FullResult`, starting from `score := 0.0`. -/
def totalScore (fullResult : List LabelScore) : F64 :=
  fullResult.foldl scoreStep (F64.finite 0)

/-- The final `switch` of `measureUrgency`. -/
def urgencyOfScore (score : F64) : String :=
  if F64.ge score (F64.ofFraction 6 10) then "high"
  else if F64.ge score (F64.ofFraction 2 10) then "medium"
  else "low"

/-- Function `measureUrgency`. -/
def measureUrgency (env : Env) (text : String) : Run String :=
  let urgency := "medium"
  if env.host = "" then Run.exited
  else
    let payload := "\x7b \"text\": \"" ++ text ++ "\"\x7d"
    let url := env.host ++ "/v1/analysis"
    match env.analysis url payload with
    | .requestError => Run.done urgency
    | .transportError => Run.done urgency
    | .response statusCode body =>
        if statusCode ≠ 200 then Run.done urgency
        else
          match body with
          | none => Run.done urgency
          | some fullResult => Run.done (urgencyOfScore (totalScore fullResult))

/-- Weight of a label in the specification's weighted sum. -/
def labelWeight (label : String) : ℚ :=
  if label = "joy" ∨ label = "surprise" then -1.5
  else if label = "neutral" then 0.2
  else if label = "sadness" ∨ label = "anger" ∨ label = "disgust" ∨ label = "fear" then 1.2
  else 0

/-- The specification's sum S: the sum over all entries of weight times score,
in exact arithmetic on the values the scores stand for. -/
def weightedSum (fullResult : List LabelScore) : ℚ :=
  (fullResult.map (fun r => labelWeight r.Label * r.Score.toRat)).sum

/-- The weight table of the specification in `float64`: for a listed label the
double of its weight's magnitude, and whether the product is subtracted. -/
def floatWeight (label : String) : Option (Bool × F64) :=
  if label = "joy" ∨ label = "surprise" then some (true, F64.ofFraction 15 10)
  else if label = "neutral" then some (false, F64.ofFraction 2 10)
  else if label = "sadness" ∨ label = "anger" ∨ label = "disgust" ∨ label = "fear" then
    some (false, F64.ofFraction 12 10)
  else none

/-- The specification's sum carried out in `float64`: from the score so far, in
list order, the rounded product of score and weight is subtracted or added and
the result rounded; entries with an unlisted label are skipped. -/
def runningScore : List LabelScore → F64 → F64
  | [], score => score
  | r :: rest, score =>
      match floatWeight r.Label with
      | none => runningScore rest score
      | some (true, w) => runningScore rest (F64.sub score (F64.mul r.Score w))
      | some (false, w) => runningScore rest (F64.add score (F64.mul r.Score w))

/-- The URL and the request body `measureUrgency` sends for a text. -/
def analysisCall (env : Env) (text : String) : CallOutcome :=
  env.analysis (env.host ++ "/v1/analysis") ("\x7b \"text\": \"" ++ text ++ "\"\x7d")

/-- An outcome other than status 200 with a body that decodes. -/
def CallOutcome.failing : CallOutcome → Bool
  | .response 200 (some _) => false
  | _ => true

/-! ## `CreateForm` and `UpdateForm` -/

/-- Go's `unicode.IsSpace`. -/
def isSpace (c : Char) : Bool :=
  c.toNat = 0x09 || c.toNat = 0x0A || c.toNat = 0x0B || c.toNat = 0x0C || c.toNat = 0x0D
  || c.toNat = 0x20 || c.toNat = 0x85 || c.toNat = 0xA0 || c.toNat = 0x1680
  || (0x2000 ≤ c.toNat && c.toNat ≤ 0x200A) || c.toNat = 0x2028 || c.toNat = 0x2029
  || c.toNat = 0x202F || c.toNat = 0x205F || c.toNat = 0x3000

/-- Go's `strings.TrimSpace`. -/
def TrimSpace (s : String) : String :=
  ⟨((s.data.dropWhile isSpace).reverse.dropWhile isSpace).reverse⟩

structure CreateFormRequest where
  Question : String
  Answer : String

structure UpdateFormRequest where
  Answer : Option String
  Status : String

/-- Handler `CreateForm`; `body` is `none` when `c.Bind` fails. -/
def CreateForm (env : Env) (store : Store) (body : Option CreateFormRequest) : Run Reply :=
  match body with
  | none => Run.done ⟨400, "error", "invalid request body", none, store⟩
  | some req =>
      if TrimSpace req.Question = "" then
        Run.done ⟨400, "error", "invalid request body", none, store⟩
      else
        let id := env.newId
        let now := env.now
        match measureUrgency env req.Answer with
        | .exited => Run.exited
        | .done urgency =>
            let stmt := DbWrite.insert
              ⟨id, req.Question, some req.Answer, some urgency, "draft", now, now⟩
            match execWrite env store stmt with
            | none => Run.done ⟨500, "error", "failed to create form", some stmt, store⟩
            | some store' => Run.done ⟨201, "form_id", id, some stmt, store'⟩

/-- The tail of `UpdateForm`: the `UPDATE` statement and the reply. -/
def updateExec (env : Env) (store : Store) (id : String) (req : UpdateFormRequest)
    (urgency : Option String) : Reply :=
  let stmt := DbWrite.update id req.Answer urgency req.Status env.now
  match execWrite env store stmt with
  | none => ⟨500, "error", "failed to update form", some stmt, store⟩
  | some store' => ⟨200, "message", "form updated", some stmt, store'⟩

/-- Handler `UpdateForm`; `body` is `none` when `c.Bind` fails. The row lookup
`SELECT status FROM forms WHERE id = $1` fails exactly when the id has no row. -/
def UpdateForm (env : Env) (store : Store) (id : String) (body : Option UpdateFormRequest) :
    Run Reply :=
  match body with
  | none => Run.done ⟨400, "error", "invalid payload", none, store⟩
  | some req =>
      match (store id).map (fun f => f.Status) with
      | none => Run.done ⟨400, "error", "form not found", none, store⟩
      | some currentStatus =>
          if allowed currentStatus req.Status = false then
            Run.done ⟨400, "error", "invalid status transition", none, store⟩
          else
            match req.Answer with
            | none => Run.done (updateExec env store id req none)
            | some answer =>
                match measureUrgency env answer with
                | .exited => Run.exited
                | .done urg => Run.done (updateExec env store id req (some urg))

/-! ## `ListForms`: query parameters and pagination -/

/-- Largest value of `int`. -/
def maxInt64 : Int := 2 ^ 63 - 1

/-- Smallest value of `int`. -/
def minInt64 : Int := -(2 ^ 63)

/-- Two's-complement wrap of an integer result to 64 bits. -/
def wrapInt64 (x : Int) : Int := (x + 2 ^ 63) % 2 ^ 64 - 2 ^ 63

/-- The digit loop of `strconv.ParseUint` for base 10 and 64 bits. `none` is a
syntax error; on a range error the loop stops at once with the largest
`uint64`, without looking at the characters that follow. -/
def parseUintLoop : List Char → Nat → Option Nat
  | [], n => some n
  | c :: cs, n =>
      if '0' ≤ c ∧ c ≤ '9' then
        if n ≥ (2 ^ 64 - 1) / 10 + 1 then some (2 ^ 64 - 1)
        else
          let n1 := n * 10 + (c.toNat - '0'.toNat)
          if n1 > 2 ^ 64 - 1 then some (2 ^ 64 - 1) else parseUintLoop cs n1
      else none

/-- The value `strconv.ParseInt(s, 10, 0)` returns; the error is dropped, as
`ListForms` drops it: 0 on a syntax error, the nearest bound on a range error. -/
def parseInt (s : List Char) : Int :=
  match s with
  | [] => 0
  | c :: cs =>
      let neg := decide (c = '-')
      let digits := if c = '+' ∨ c = '-' then cs else c :: cs
      if digits = [] then 0
      else
        match parseUintLoop digits 0 with
        | none => 0
        | some un =>
            if neg = false ∧ un ≥ 2 ^ 63 then maxInt64
            else if neg = true ∧ un > 2 ^ 63 then minInt64
            else if neg then -(un : Int) else (un : Int)

/-- The digit loop of the fast path of `strconv.Atoi`. -/
def atoiFastLoop : List Char → Int → Option Int
  | [], n => some n
  | c :: cs, n =>
      if '0' ≤ c ∧ c ≤ '9' then atoiFastLoop cs (n * 10 + ((c.toNat - '0'.toNat : Nat) : Int))
      else none

/-- The value of `strconv.Atoi(s)` with its error dropped: strings of 1 to 18
bytes take the fast path, all others go through `ParseInt`. -/
def Atoi (s : String) : Int :=
  if 0 < s.utf8ByteSize ∧ s.utf8ByteSize < 19 then
    match s.data with
    | [] => 0
    | c :: cs =>
        let digits := if c = '-' ∨ c = '+' then cs else c :: cs
        if digits = [] then 0
        else
          match atoiFastLoop digits 0 with
          | none => 0
          | some n => if c = '-' then -n else n
  else parseInt s.data

/-- The page, the limit and the offset `ListForms` works with. -/
structure Paging where
  page : Int
  limit : Int
  offset : Int

/-- The clamping of `page` and `limit` and the offset, from the values `Atoi`
yields. -/
def clampPaging (page limit : Int) : Paging :=
  let page := if page < 1 then 1 else page
  let limit := if limit < 1 ∨ limit > 100 then 10 else limit
  ⟨page, limit, wrapInt64 (wrapInt64 (page - 1) * limit)⟩

/-- Pagination of a request: `c.QueryParam` yields the empty string for a
parameter that is absent. -/
def paging (q : String → String) : Paging :=
  clampPaging (Atoi (q "page")) (Atoi (q "limit"))

/-! ## `ListForms`: filters, ordering and the query text -/

/-- A value bound to a placeholder (`[]interface{}`): a string or an `int`. -/
inductive Arg where
  | str (s : String)
  | int (n : Int)
  deriving DecidableEq

/-- Go's `strconv.Itoa`. -/
def Itoa (i : Int) : String := toString i

/-- The variables the filter loop updates: `filters`, `args` and `i`. -/
structure FilterState where
  filters : List String
  args : List Arg
  i : Int

/-- One pass of the loop over the filter fields. -/
def filterStep (q : String → String) (st : FilterState) (field : String) : FilterState :=
  let value := q field
  if value ≠ "" then
    { filters := st.filters ++ [field ++ " ILIKE $" ++ Itoa st.i],
      args := st.args ++ [Arg.str ("%" ++ value ++ "%")],
      i := st.i + 1 }
  else st

/-- The fields the loop ranges over, in its order. -/
def filterFields : List String := ["question", "answer", "urgency", "status"]

/-- The filter loop, from `filters := []`, `args := []`, `i := 1`. -/
def buildFilters (q : String → String) : FilterState :=
  filterFields.foldl (filterStep q) ⟨[], [], 1⟩

/-- The `where` string: empty without filters, else the filters joined by AND. -/
def whereClause (filters : List String) : String :=
  if filters.length > 0 then "WHERE " ++ " AND ".intercalate filters else ""

/-- Go's `unicode.ToUpper` on the runes that matter to `ListForms`: ASCII letters,
and the two other runes whose upper case is an ASCII letter, U+017F (long s, to
S) and U+0131 (dotless i, to I). Every other rune has a non-ASCII upper case in
Go's table; the model leaves it as it is, which the comparisons with ASC and
DESC cannot tell apart. -/
def toUpperRune (c : Char) : Char :=
  if 'a' ≤ c ∧ c ≤ 'z' then Char.ofNat (c.toNat - 32)
  else if c = Char.ofNat 0x17F then 'S'
  else if c = Char.ofNat 0x131 then 'I'
  else c

/-- Go's `strings.ToUpper`. -/
def ToUpper (s : String) : String := ⟨s.data.map toUpperRune⟩

/-- The variable `direction` after its normalisation. -/
def normDirection (directionParam : String) : String :=
  let direction := ToUpper directionParam
  if direction ≠ "ASC" ∧ direction ≠ "DESC" then "DESC" else direction

/-- The default order string, the urgency rank. -/
def rankOrder : String :=
  "ORDER BY CASE urgency WHEN 'high' THEN 1 WHEN 'medium' THEN 2 WHEN 'low' THEN 3 ELSE 4 END "

/-- The variable `order` after the `if sort != ""` block. -/
def orderClause (sort directionParam : String) : String :=
  let direction := normDirection directionParam
  let order := rankOrder
  if sort ≠ "" then
    let order := if sort = "urgency" then order ++ direction else order
    if sort = "question" ∨ sort = "answer" ∨ sort = "status" ∨ sort = "created_at" then
      "ORDER BY " ++ sort ++ " " ++ direction
    else order
  else order

/-- The raw-string concatenation that yields `query`. -/
def queryText (whereStr order : String) (i : Int) : String :=
  "\n\t\t\tSELECT id, question, answer, urgency, status, created_at, updated_at\n\t\t\tFROM forms\n\t\t\t"
    ++ whereStr ++ "\n\t\t\t" ++ order ++ "\n\t\t\tLIMIT $" ++ Itoa i ++ " OFFSET $" ++ Itoa (i + 1)

/-- What `ListForms` passes to `db.Query`, and the page and limit it echoes. -/
structure ListPlan where
  query : String
  args : List Arg
  page : Int
  limit : Int

/-- The part of `ListForms` up to the call of `db.Query`. -/
def listPlan (q : String → String) : ListPlan :=
  let p := paging q
  let st := buildFilters q
  { query := queryText (whereClause st.filters) (orderClause (q "sort") (q "direction")) st.i,
    args := st.args ++ [Arg.int p.limit, Arg.int p.offset],
    page := p.page,
    limit := p.limit }

/-- What `db.Query` and the row scan come to. -/
inductive QueryOutcome where
  | queryError
  | scanError
  | rows (results : List Form)

/-- The JSON reply of `ListForms`. -/
inductive ListReply where
  | ok (page limit : Int) (results : List Form)
  | failed (code : Nat) (message : String)

/-- Handler `ListForms`, over a store that answers a query text and its
arguments. -/
def ListForms (db : String → List Arg → QueryOutcome) (q : String → String) : ListReply :=
  let plan := listPlan q
  match db plan.query plan.args with
  | .queryError => ListReply.failed 500 "query failed"
  | .scanError => ListReply.failed 500 "scan error"
  | .rows results => ListReply.ok plan.page plan.limit results

/-! ## The store's reading of a query: `ILIKE` predicates and the order clause -/

/-- PostgreSQL `LIKE`: in the pattern `%` stands for any run of characters, `_`
for any one character, and a backslash makes the character after it literal
(a pattern that ends in a lone backslash is an error, here no match). -/
def likeMatch : List Char → List Char → Bool
  | [], text => text.isEmpty
  | p :: ps, text =>
      if p = '%' then text.tails.any (fun rest => likeMatch ps rest)
      else if p = '_' then
        match text with
        | [] => false
        | _ :: rest => likeMatch ps rest
      else if p = '\\' then
        match ps, text with
        | e :: ps', c :: rest => c = e && likeMatch ps' rest
        | _, _ => false
      else
        match text with
        | [] => false
        | c :: rest => c = p && likeMatch ps rest

/-- Case folding of `ILIKE`, on the ASCII letters. -/
def lowerRune (c : Char) : Char :=
  if 'A' ≤ c ∧ c ≤ 'Z' then Char.ofNat (c.toNat + 32) else c

/-- PostgreSQL `text ILIKE pattern`: `LIKE` on the lower-cased operands. -/
def ilike (text pattern : String) : Bool :=
  likeMatch (pattern.data.map lowerRune) (text.data.map lowerRune)

/-- The column of a row that a filter field names; `none` is SQL NULL. -/
def fieldText (row : Form) (field : String) : Option String :=
  if field = "question" then some row.Question
  else if field = "answer" then row.Answer
  else if field = "urgency" then row.Urgency
  else if field = "status" then some row.Status
  else none

/-- Whether a row passes the predicate `field ILIKE $k` with `pattern` bound to
the placeholder; NULL passes no predicate. -/
def rowSatisfies (row : Form) (field pattern : String) : Bool :=
  match fieldText row field with
  | none => false
  | some text => ilike text pattern

/-- The specification's reading of a filter: the text holds the value as a
substring, case ignored. -/
def containsFold (text value : String) : Prop :=
  value.data.map lowerRune <:+: text.data.map lowerRune

/-- The specification's reading of a filter on a row. -/
def rowContains (row : Form) (field value : String) : Prop :=
  ∃ text, fieldText row field = some text ∧ containsFold text value

/-- The characters `LIKE` gives a meaning to. -/
def likeSpecial (c : Char) : Bool := c = '%' || c = '_' || c = '\\'

/-- The filter parameters that carry a value, with it, in the fixed order. -/
def activeFilters (q : String → String) : List (String × String) :=
  (filterFields.map (fun field => (field, q field))).filter (fun p => p.2 ≠ "")

/-- The rank the specification gives an urgency: high 1, medium 2, low 3, any
other or absent value 4. -/
def urgencyRank (urgency : Option String) : Nat :=
  if urgency = some "high" then 1
  else if urgency = some "medium" then 2
  else if urgency = some "low" then 3
  else 4

/-- The sort values that name a column. -/
def columnSorts : List String := ["question", "answer", "status", "created_at"]

/-- The direction parameter spells asc, case ignored: a or A, then s, S or the
long s U+017F (whose upper case is S), then c or C. -/
def spellsAsc (d : String) : Prop :=
  ∃ a s c, d.data = [a, s, c] ∧ (a = 'a' ∨ a = 'A') ∧
    (s = 's' ∨ s = 'S' ∨ s = Char.ofNat 0x17F) ∧ (c = 'c' ∨ c = 'C')

/-- The direction parameter spells desc, case ignored. -/
def spellsDesc (d : String) : Prop :=
  ∃ x e s c, d.data = [x, e, s, c] ∧ (x = 'd' ∨ x = 'D') ∧ (e = 'e' ∨ e = 'E') ∧
    (s = 's' ∨ s = 'S' ∨ s = Char.ofNat 0x17F) ∧ (c = 'c' ∨ c = 'C')

/-- Rows with a smaller urgency rank come first: all high, then all medium, then
all low, then the rows whose urgency is absent or unknown. -/
def highFirst (rows : List Form) : Prop :=
  ∀ (i j : Nat) (hi : i < rows.length) (hj : j < rows.length),
    urgencyRank rows[i].Urgency < urgencyRank rows[j].Urgency → i < j

/-- The reverse: rows with a larger urgency rank come first. -/
def highLast (rows : List Form) : Prop :=
  ∀ (i j : Nat) (hi : i < rows.length) (hj : j < rows.length),
    urgencyRank rows[i].Urgency < urgencyRank rows[j].Urgency → j < i

/-- The words of a clause: the maximal runs of characters other than a blank. -/
def splitWords (cs : List Char) : List String :=
  ((cs.foldr (fun c acc =>
      if c = ' ' then [] :: acc
      else
        match acc with
        | [] => [[c]]
        | w :: ws => (c :: w) :: ws) [[]]).filter (fun w => w ≠ [])).map String.mk

/-- A string literal of SQL without its quotes; `none` for any other word. -/
def unquote (w : String) : Option String :=
  match w.data with
  | [] => none
  | q :: rest =>
      if q = Char.ofNat 39 ∧ rest.getLast? = some (Char.ofNat 39) then some ⟨rest.dropLast⟩
      else none

/-- An integer literal of SQL, digits only. -/
def readNumber (w : String) : Option Int :=
  if w.data = [] then none else atoiFastLoop w.data 0

/-- An order clause of the shape
`ORDER BY CASE <column> WHEN '<text>' THEN <n> ... ELSE <n> END [ASC|DESC]`. -/
structure CaseOrder where
  column : String
  whens : List (String × Int)
  otherwise : Int
  descending : Bool
  deriving DecidableEq

/-- The `WHEN ... THEN ...` arms, the `ELSE` value and the words after `END`. -/
def parseWhens : List String → Option (List (String × Int) × Int × List String)
  | kw :: lit :: th :: n :: rest =>
      if kw = "WHEN" ∧ th = "THEN" then
        match unquote lit, readNumber n, parseWhens rest with
        | some text, some value, some (whens, otherwise, tail) =>
            some ((text, value) :: whens, otherwise, tail)
        | _, _, _ => none
      else if kw = "ELSE" ∧ th = "END" then
        (readNumber lit).map (fun value => ([], value, n :: rest))
      else none
  | [kw, lit, th] =>
      if kw = "ELSE" ∧ th = "END" then (readNumber lit).map (fun value => ([], value, []))
      else none
  | _ => none

/-- The store's parse of an order clause that sorts by a `CASE` expression;
`none` for every other text. Without a direction word the order is ascending. -/
def parseCaseOrder (clause : String) : Option CaseOrder :=
  match splitWords clause.data with
  | o :: b :: c :: column :: rest =>
      if o = "ORDER" ∧ b = "BY" ∧ c = "CASE" then
        match parseWhens rest with
        | some (whens, otherwise, tail) =>
            if tail = [] ∨ tail = ["ASC"] then some ⟨column, whens, otherwise, false⟩
            else if tail = ["DESC"] then some ⟨column, whens, otherwise, true⟩
            else none
        | none => none
      else none
  | _ => none

/-- The value of the `CASE` expression on a row: the number of the first arm
whose text equals the column, the `ELSE` number when none does or the column is
NULL. -/
def CaseOrder.value (o : CaseOrder) (row : Form) : Int :=
  match fieldText row o.column with
  | none => o.otherwise
  | some text =>
      match o.whens.find? (fun arm => arm.1 = text) with
      | some arm => arm.2
      | none => o.otherwise

/-- Rows come back in the order a clause asks for: when the clause sorts by a
`CASE` expression its value never falls along the list, or never rises when the
clause ends in `DESC`; a clause of another shape says nothing here. -/
def followsOrderClause (clause : String) (rows : List Form) : Prop :=
  match parseCaseOrder clause with
  | some o =>
      rows.Pairwise (fun a b =>
        if o.descending then o.value b ≤ o.value a else o.value a ≤ o.value b)
  | none => True

/-- The rank the clause gives a row, read from the clause text. -/
def clauseRank (clause : String) (row : Form) : Option Int :=
  (parseCaseOrder clause).map (fun o => o.value row)

/-! ## Concrete inputs -/

/-- A configured environment whose sentiment service answers 200 with neutral:1. -/
def envNeutral : Env :=
  ⟨"http://emotion:8000", fun _ _ => CallOutcome.response 200 (some [⟨"neutral", F64.ofFraction 1 1⟩]), 7, "id-1",
    fun _ => false⟩

/-- A store with the single record f1, a draft that already holds an answer. -/
def storeOne : Store := fun j =>
  if j = "f1" then some ⟨"f1", "How are you?", some "fine", some "low", "draft", 1, 1⟩ else none

/-- An environment in which `EMOTION_API_HOST` is not set. -/
def envNoHost : Env :=
  ⟨"", fun _ _ => CallOutcome.transportError, 7, "id-1", fun _ => false⟩

/-- A configured environment whose sentiment service cannot be reached. -/
def envDown : Env :=
  ⟨"http://emotion:8000", fun _ _ => CallOutcome.transportError, 7, "id-1", fun _ => false⟩

/-- The record of `storeOne`. -/
def rowOne : Form := ⟨"f1", "How are you?", some "fine", some "low", "draft", 1, 1⟩

/-- A list request that asks for the largest page number and nothing else. -/
def qMaxPage : String → String := fun k => if k = "page" then "9223372036854775807" else ""

/-- A list request whose question filter is the single character `_`. -/
def qUnderscore : String → String := fun k => if k = "question" then "_" else ""

/-- A list request with a status filter, sorted by answer, page 3 of 20. -/
def qDrafts : String → String := fun k =>
  if k = "status" then "draft" else if k = "sort" then "answer"
  else if k = "direction" then "asc" else if k = "page" then "3"
  else if k = "limit" then "20" else ""

/-- The same request shape with other values: another status, page and limit,
and a direction written in capitals. -/
def qClosed : String → String := fun k =>
  if k = "status" then "x' OR 1=1 --" else if k = "sort" then "answer"
  else if k = "direction" then "ASC" else if k = "page" then "1"
  else if k = "limit" then "100" else ""

/-- A decoded response whose exact weighted sum is 0.6: sadness 0.75, sadness 1,
joy 1; all three scores are doubles. -/
def rsBoundary : List LabelScore :=
  [⟨"sadness", F64.ofFraction 3 4⟩, ⟨"sadness", F64.ofFraction 1 1⟩, ⟨"joy", F64.ofFraction 1 1⟩]

/-- A configured environment whose sentiment service answers 200 with
`rsBoundary`. -/
def envBoundary : Env :=
  ⟨"http://emotion:8000", fun _ _ => CallOutcome.response 200 (some rsBoundary), 7, "id-1",
    fun _ => false⟩

/-- A configured environment in which every `db.Exec` returns an error. -/
def envExecDown : Env :=
  ⟨"http://emotion:8000", fun _ _ => CallOutcome.transportError, 7, "id-1", fun _ => true⟩

/-! ## Theorems: status transitions -/

theorem allowed_iff_mem (current requested : String) :
    allowed current requested = true ↔ (current, requested) ∈ transitionTable := by
  unfold allowed validTransitions transitionTable
  by_cases h1 : current = "draft"
  · subst h1; simp
  by_cases h2 : current = "filled"
  · subst h2; simp
  by_cases h3 : current = "reviewed"
  · subst h3; simp
  by_cases h4 : current = "closed"
  · subst h4; simp
  simp [h1, h2, h3, h4]

/-- C1: the transition check of `UpdateForm` allows `(current, requested)` exactly
on the six edges draft->closed, draft->filled, filled->closed, filled->reviewed,
reviewed->closed, closed->draft; so an identity transition, a transition from a
status outside draft/filled/reviewed/closed and a transition to an unknown target
are all denied. -/
theorem transition_check_matches_table :
    (∀ current requested : String,
      allowed current requested = true ↔
        ((current = "draft" ∧ requested = "closed") ∨
         (current = "draft" ∧ requested = "filled") ∨
         (current = "filled" ∧ requested = "closed") ∨
         (current = "filled" ∧ requested = "reviewed") ∨
         (current = "reviewed" ∧ requested = "closed") ∨
         (current = "closed" ∧ requested = "draft"))) ∧
    (∀ s : String, allowed s s = false) ∧
    (∀ current requested : String, current ∉ statuses → allowed current requested = false) ∧
    (∀ current requested : String, requested ∉ statuses → allowed current requested = false) := by
  have key : ∀ current requested : String,
      allowed current requested = true ↔
        ((current = "draft" ∧ requested = "closed") ∨
         (current = "draft" ∧ requested = "filled") ∨
         (current = "filled" ∧ requested = "closed") ∨
         (current = "filled" ∧ requested = "reviewed") ∨
         (current = "reviewed" ∧ requested = "closed") ∨
         (current = "closed" ∧ requested = "draft")) := by
    intro current requested
    rw [allowed_iff_mem]
    simp [transitionTable]
  refine ⟨key, ?_, ?_, ?_⟩
  · intro s
    cases h : allowed s s with
    | false => rfl
    | true =>
        exfalso
        rcases (key s s).1 h with ⟨a, b⟩ | ⟨a, b⟩ | ⟨a, b⟩ | ⟨a, b⟩ | ⟨a, b⟩ | ⟨a, b⟩ <;>
          · rw [a] at b; revert b; decide
  · intro current requested hc
    cases h : allowed current requested with
    | false => rfl
    | true =>
        exfalso
        apply hc
        rcases (key current requested).1 h with ⟨a, _⟩ | ⟨a, _⟩ | ⟨a, _⟩ | ⟨a, _⟩ | ⟨a, _⟩ | ⟨a, _⟩ <;>
          · rw [a]; decide
  · intro current requested hr
    cases h : allowed current requested with
    | false => rfl
    | true =>
        exfalso
        apply hr
        rcases (key current requested).1 h with ⟨_, b⟩ | ⟨_, b⟩ | ⟨_, b⟩ | ⟨_, b⟩ | ⟨_, b⟩ | ⟨_, b⟩ <;>
          · rw [b]; decide

/-- C1, at concrete inputs: filled->reviewed is allowed, filled->draft, the
identity on draft, a transition from "archived" and one to "done" are denied. -/
theorem transition_check_matches_table_witness :
    allowed "filled" "reviewed" = true ∧ allowed "filled" "draft" = false ∧
    allowed "draft" "draft" = false ∧ allowed "archived" "draft" = false ∧
    allowed "draft" "done" = false :=
  ⟨(transition_check_matches_table.1 "filled" "reviewed").2 (by decide),
   by decide,
   transition_check_matches_table.2.1 "draft",
   transition_check_matches_table.2.2.1 "archived" "draft" (by decide),
   transition_check_matches_table.2.2.2 "draft" "done" (by decide)⟩

/-! ## Theorems: urgency classification -/

theorem measureUrgency_decoded (env : Env) (text : String) (rs : List LabelScore)
    (hhost : env.host ≠ "") (hcall : analysisCall env text = CallOutcome.response 200 (some rs)) :
    measureUrgency env text = Run.done (urgencyOfScore (totalScore rs)) := by
  unfold analysisCall at hcall
  unfold measureUrgency
  simp only [hhost, if_false, hcall]
  simp

theorem measureUrgency_failing (env : Env) (text : String)
    (hhost : env.host ≠ "") (hfail : (analysisCall env text).failing = true) :
    measureUrgency env text = Run.done "medium" := by
  unfold analysisCall at hfail
  unfold measureUrgency
  simp only [hhost, if_false]
  cases hc : env.analysis (env.host ++ "/v1/analysis") ("\x7b \"text\": \"" ++ text ++ "\"\x7d") with
  | requestError => rfl
  | transportError => rfl
  | response code body =>
      by_cases h200 : code = 200
      · cases body with
        | none => simp [h200]
        | some rs => rw [hc, h200] at hfail; simp [CallOutcome.failing] at hfail
      · simp [h200]

theorem measureUrgency_no_host (env : Env) (text : String) (hhost : env.host = "") :
    measureUrgency env text = Run.exited := by
  unfold measureUrgency
  simp [hhost]

theorem measureUrgency_returns (env : Env) (text : String) (hhost : env.host ≠ "") :
    ∃ u, measureUrgency env text = Run.done u := by
  unfold measureUrgency
  simp only [hhost, if_false]
  cases env.analysis (env.host ++ "/v1/analysis") ("\x7b \"text\": \"" ++ text ++ "\"\x7d") with
  | requestError => exact ⟨_, rfl⟩
  | transportError => exact ⟨_, rfl⟩
  | response code body =>
      by_cases h200 : code = 200
      · cases body with
        | none => exact ⟨"medium", by simp [h200]⟩
        | some rs => exact ⟨urgencyOfScore (totalScore rs), by simp [h200]⟩
      · exact ⟨"medium", by simp [h200]⟩

theorem labelWeight_joy : labelWeight "joy" = -1.5 := by
  unfold labelWeight; rw [if_pos (by decide)]

theorem labelWeight_sadness : labelWeight "sadness" = 1.2 := by
  unfold labelWeight; rw [if_neg (by decide), if_neg (by decide), if_pos (by decide)]

/-- The double of 0.6 is finite. -/
theorem high_threshold_finite :
    F64.ofFraction 6 10 = F64.finite (F64.ofFraction 6 10).units := by decide!

/-- The double of 0.2 is finite. -/
theorem medium_threshold_finite :
    F64.ofFraction 2 10 = F64.finite (F64.ofFraction 2 10).units := by decide!

/-- The double of 0.2 lies below the double of 0.6. -/
theorem thresholds_ordered :
    (F64.ofFraction 2 10).units ≤ (F64.ofFraction 6 10).units := by decide!

theorem F64.ge_of_ge_finite (s : F64) (a b : Int) (hab : a ≤ b)
    (h : F64.ge s (F64.finite b) = true) : F64.ge s (F64.finite a) = true := by
  cases s with
  | finite k =>
      simp only [F64.ge, decide_eq_true_eq] at h ⊢
      omega
  | posInf => rfl
  | negInf => simp [F64.ge] at h
  | nan => simp [F64.ge] at h

theorem F64.ge_finite_false_iff (s : F64) (b : Int) :
    F64.ge s (F64.finite b) = false ↔ (F64.lt s (F64.finite b) = true ∨ s = F64.nan) := by
  cases s with
  | finite k =>
      simp only [F64.ge, F64.lt, decide_eq_false_iff_not, decide_eq_true_eq, reduceCtorEq,
        or_false]
      omega
  | posInf => simp [F64.ge, F64.lt]
  | negInf => simp [F64.ge, F64.lt]
  | nan => simp [F64.ge, F64.lt]

theorem F64.ge_finite_true_not_nan (s : F64) (b : Int) (h : F64.ge s (F64.finite b) = true) :
    s ≠ F64.nan := by
  rintro rfl
  simp [F64.ge] at h

/-- How the final `switch` reads a score. -/
theorem urgencyOfScore_cases (s : F64) :
    (urgencyOfScore s = "high" ↔ F64.ge s (F64.ofFraction 6 10) = true) ∧
    (urgencyOfScore s = "medium" ↔
      F64.ge s (F64.ofFraction 2 10) = true ∧ F64.lt s (F64.ofFraction 6 10) = true) ∧
    (urgencyOfScore s = "low" ↔ F64.lt s (F64.ofFraction 2 10) = true ∨ s = F64.nan) ∧
    (urgencyOfScore s = "low" ∨ urgencyOfScore s = "medium" ∨ urgencyOfScore s = "high") := by
  have hmono : F64.ge s (F64.ofFraction 6 10) = true → F64.ge s (F64.ofFraction 2 10) = true := by
    intro h
    rw [high_threshold_finite] at h
    rw [medium_threshold_finite]
    exact F64.ge_of_ge_finite s _ _ thresholds_ordered h
  have hlow : F64.ge s (F64.ofFraction 2 10) = false ↔
      (F64.lt s (F64.ofFraction 2 10) = true ∨ s = F64.nan) := by
    rw [medium_threshold_finite]
    exact F64.ge_finite_false_iff s _
  have hhigh : F64.ge s (F64.ofFraction 6 10) = false ↔
      (F64.lt s (F64.ofFraction 6 10) = true ∨ s = F64.nan) := by
    rw [high_threshold_finite]
    exact F64.ge_finite_false_iff s _
  have hnan : F64.ge s (F64.ofFraction 2 10) = true → s ≠ F64.nan := by
    intro h
    rw [medium_threshold_finite] at h
    exact F64.ge_finite_true_not_nan s _ h
  unfold urgencyOfScore
  cases h6 : F64.ge s (F64.ofFraction 6 10) with
  | true =>
      have h2 := hmono h6
      have hn := hnan h2
      have hl6 : ¬ F64.lt s (F64.ofFraction 6 10) = true := by
        intro hl
        have := hhigh.2 (Or.inl hl)
        rw [h6] at this
        cases this
      have hl2 : ¬ F64.lt s (F64.ofFraction 2 10) = true := by
        intro hl
        have := hlow.2 (Or.inl hl)
        rw [h2] at this
        cases this
      simp [h2, hn, hl6, hl2]
  | false =>
      cases h2 : F64.ge s (F64.ofFraction 2 10) with
      | true =>
          have hn := hnan h2
          have hl6 : F64.lt s (F64.ofFraction 6 10) = true := by
            rcases hhigh.1 h6 with h | h
            · exact h
            · exact absurd h hn
          have hl2 : ¬ F64.lt s (F64.ofFraction 2 10) = true := by
            intro hl
            have := hlow.2 (Or.inl hl)
            rw [h2] at this
            cases this
          simp [hn, hl6, hl2]
      | false =>
          have hl := hlow.1 h2
          simp [hl]

theorem foldl_scoreStep (rs : List LabelScore) (score : F64) :
    rs.foldl scoreStep score = runningScore rs score := by
  induction rs generalizing score with
  | nil => rfl
  | cons r rs ih =>
      rw [List.foldl_cons, ih]
      have hstep : runningScore (r :: rs) score = runningScore rs (scoreStep score r) := by
        rw [runningScore]
        unfold scoreStep floatWeight
        split_ifs <;> rfl
      rw [hstep]

theorem totalScore_eq_runningScore (rs : List LabelScore) :
    totalScore rs = runningScore rs (F64.finite 0) :=
  foldl_scoreStep rs (F64.finite 0)

/-- C3, as stated, fails: for the decoded response sadness 0.75, sadness 1,
joy 1 the exact weighted sum is 0.6, so the claim gives high, while the
`float64` loop of `measureUrgency` arrives just below 0.6 and returns medium. -/
theorem measureUrgency_classifies_counterexample :
    weightedSum rsBoundary = 0.6 ∧
    analysisCall envBoundary "I need help" = CallOutcome.response 200 (some rsBoundary) ∧
    measureUrgency envBoundary "I need help" = Run.done "medium" := by
  refine ⟨?_, rfl, ?_⟩
  · have h1 : F64.ofFraction 3 4 = F64.finite (3 * 2 ^ 1072) := by decide!
    have h2 : F64.ofFraction 1 1 = F64.finite (2 ^ 1074) := by decide!
    simp only [weightedSum, rsBoundary, List.map_cons, List.map_nil, List.sum_cons, List.sum_nil,
      labelWeight_joy, labelWeight_sadness, h1, h2, F64.toRat]
    norm_num
  · rw [measureUrgency_decoded envBoundary "I need help" rsBoundary (by decide) rfl]
    have h : urgencyOfScore (totalScore rsBoundary) = "medium" := by decide!
    rw [h]

/-- C3, amended: for a decoded sentiment response `rs`, `measureUrgency` returns
the level fixed by the `float64` score its loop computes (from 0, in list order,
each rounded product score x 1.5 subtracted for joy and surprise, score x 0.2
added for neutral, score x 1.2 added for sadness, anger, disgust and fear,
every sum rounded): high iff that score >= 0.6, medium iff it is >= 0.2 and
< 0.6, low iff it is < 0.2 or NaN; the result is one of the three levels; and
the responses joy:1, sadness:1, neutral:1 and the empty one give low, high,
medium and low. -/
theorem measureUrgency_classifies (env : Env) (text : String) (hhost : env.host ≠ "") :
    (∀ rs : List LabelScore, analysisCall env text = CallOutcome.response 200 (some rs) →
      (measureUrgency env text = Run.done "high" ↔
        F64.ge (runningScore rs (F64.finite 0)) (F64.ofFraction 6 10) = true) ∧
      (measureUrgency env text = Run.done "medium" ↔
        F64.ge (runningScore rs (F64.finite 0)) (F64.ofFraction 2 10) = true ∧
        F64.lt (runningScore rs (F64.finite 0)) (F64.ofFraction 6 10) = true) ∧
      (measureUrgency env text = Run.done "low" ↔
        F64.lt (runningScore rs (F64.finite 0)) (F64.ofFraction 2 10) = true ∨
        runningScore rs (F64.finite 0) = F64.nan) ∧
      (measureUrgency env text = Run.done "low" ∨ measureUrgency env text = Run.done "medium" ∨
        measureUrgency env text = Run.done "high")) ∧
    (analysisCall env text = CallOutcome.response 200 (some [⟨"joy", F64.ofFraction 1 1⟩]) →
      measureUrgency env text = Run.done "low") ∧
    (analysisCall env text = CallOutcome.response 200 (some [⟨"sadness", F64.ofFraction 1 1⟩]) →
      measureUrgency env text = Run.done "high") ∧
    (analysisCall env text = CallOutcome.response 200 (some [⟨"neutral", F64.ofFraction 1 1⟩]) →
      measureUrgency env text = Run.done "medium") ∧
    (analysisCall env text = CallOutcome.response 200 (some []) →
      measureUrgency env text = Run.done "low") := by
  have hinj : ∀ a b : String, (Run.done a = Run.done b) ↔ a = b := by
    intro a b
    constructor
    · intro h; injection h
    · intro h; rw [h]
  refine ⟨?_, ?_, ?_, ?_, ?_⟩
  · intro rs hcall
    rw [measureUrgency_decoded env text rs hhost hcall, totalScore_eq_runningScore]
    simp only [hinj]
    exact urgencyOfScore_cases (runningScore rs (F64.finite 0))
  · intro hcall
    rw [measureUrgency_decoded env text _ hhost hcall]
    have h : urgencyOfScore (totalScore [⟨"joy", F64.ofFraction 1 1⟩]) = "low" := by decide!
    rw [h]
  · intro hcall
    rw [measureUrgency_decoded env text _ hhost hcall]
    have h : urgencyOfScore (totalScore [⟨"sadness", F64.ofFraction 1 1⟩]) = "high" := by decide!
    rw [h]
  · intro hcall
    rw [measureUrgency_decoded env text _ hhost hcall]
    have h : urgencyOfScore (totalScore [⟨"neutral", F64.ofFraction 1 1⟩]) = "medium" := by decide!
    rw [h]
  · intro hcall
    rw [measureUrgency_decoded env text _ hhost hcall]
    have h : urgencyOfScore (totalScore []) = "low" := by decide!
    rw [h]

/-- C3 amended, at the response neutral:1 (score 0.2, the inclusive boundary):
medium. -/
theorem measureUrgency_classifies_witness :
    measureUrgency envNeutral "it is fine" = Run.done "medium" :=
  (measureUrgency_classifies envNeutral "it is fine" (by decide)).2.2.2.1 rfl

/-! ## Theorems: `UpdateForm` and `CreateForm` -/

theorem UpdateForm_no_answer (env : Env) (store : Store) (id : String) (req : UpdateFormRequest)
    (f : Form) (hrow : store id = some f) (hok : allowed f.Status req.Status = true)
    (hans : req.Answer = none) :
    UpdateForm env store id (some req) = Run.done (updateExec env store id req none) := by
  simp [UpdateForm, hrow, hok, hans]

theorem UpdateForm_answer (env : Env) (store : Store) (id : String) (req : UpdateFormRequest)
    (f : Form) (a u : String) (hrow : store id = some f)
    (hok : allowed f.Status req.Status = true) (hans : req.Answer = some a)
    (hurg : measureUrgency env a = Run.done u) :
    UpdateForm env store id (some req) = Run.done (updateExec env store id req (some u)) := by
  simp [UpdateForm, hrow, hok, hans, hurg]

theorem UpdateForm_answer_exit (env : Env) (store : Store) (id : String)
    (req : UpdateFormRequest) (f : Form) (a : String) (hrow : store id = some f)
    (hok : allowed f.Status req.Status = true) (hans : req.Answer = some a)
    (hurg : measureUrgency env a = Run.exited) :
    UpdateForm env store id (some req) = Run.exited := by
  simp [UpdateForm, hrow, hok, hans, hurg]

theorem updateExec_write (env : Env) (store : Store) (id : String) (req : UpdateFormRequest)
    (u : Option String) :
    (updateExec env store id req u).write =
      some (DbWrite.update id req.Answer u req.Status env.now) := by
  cases h : env.execError (DbWrite.update id req.Answer u req.Status env.now) <;>
    simp [updateExec, execWrite, h]

/-- The `UPDATE` that `db.Exec` carries out: reply 200, the row of the id
rewritten, every other row as before. -/
theorem updateExec_ok (env : Env) (store : Store) (id : String) (req : UpdateFormRequest)
    (u : Option String)
    (hexec : env.execError (DbWrite.update id req.Answer u req.Status env.now) = false) :
    (updateExec env store id req u).code = 200 ∧
    (∀ f, store id = some f →
      (updateExec env store id req u).store id =
        some { f with Answer := req.Answer, Urgency := u, Status := req.Status,
                      UpdatedAt := env.now }) ∧
    (∀ j, j ≠ id → (updateExec env store id req u).store j = store j) := by
  refine ⟨?_, ?_, ?_⟩
  · simp [updateExec, execWrite, hexec]
  · intro f hrow
    simp [updateExec, execWrite, hexec, hrow]
  · intro j hj
    simp [updateExec, execWrite, hexec, hj]

/-- The `UPDATE` for which `db.Exec` returns an error: reply 500, store as before. -/
theorem updateExec_failed (env : Env) (store : Store) (id : String) (req : UpdateFormRequest)
    (u : Option String)
    (hexec : env.execError (DbWrite.update id req.Answer u req.Status env.now) = true) :
    (updateExec env store id req u).code = 500 ∧
    (updateExec env store id req u).key = "error" ∧
    (updateExec env store id req u).store = store := by
  simp [updateExec, execWrite, hexec]

theorem CreateForm_urgency (env : Env) (store : Store) (question answer u : String)
    (hq : TrimSpace question ≠ "") (hurg : measureUrgency env answer = Run.done u) :
    ∃ r, CreateForm env store (some ⟨question, answer⟩) = Run.done r ∧
      r.write = some (DbWrite.insert
        ⟨env.newId, question, some answer, some u, "draft", env.now, env.now⟩) := by
  unfold CreateForm
  simp only [hq, if_false, hurg]
  cases execWrite env store (DbWrite.insert
      ⟨env.newId, question, some answer, some u, "draft", env.now, env.now⟩) with
  | none => exact ⟨_, rfl, rfl⟩
  | some st => exact ⟨_, rfl, rfl⟩

/-- C4, as stated, fails: with the sentiment host unset and a failing outcome,
`measureUrgency` does not return medium; it ends the process, and so does the
enclosing create. -/
theorem measureUrgency_failopen_counterexample :
    (analysisCall envNoHost "help").failing = true ∧
    measureUrgency envNoHost "help" = Run.exited ∧
    CreateForm envNoHost storeOne (some ⟨"How are you?", "help"⟩) = Run.exited := by
  refine ⟨rfl, measureUrgency_no_host envNoHost "help" rfl, ?_⟩
  unfold CreateForm
  have hq : TrimSpace "How are you?" ≠ "" := by decide
  simp only [hq, if_false, measureUrgency_no_host envNoHost "help" rfl]

/-- C4, amended: when the sentiment host setting is non-empty, every failing
outcome of the call (request not constructed, transport error, status other
than 200, body that does not decode) makes `measureUrgency` return medium
normally, and the enclosing create and update go on to issue their write with
urgency medium; when the host setting is empty `measureUrgency` ends the
process instead. -/
theorem measureUrgency_failopen (env : Env) (text : String) (hhost : env.host ≠ "")
    (hfail : (analysisCall env text).failing = true) :
    measureUrgency env text = Run.done "medium" ∧
    (∀ (store : Store) (question : String), TrimSpace question ≠ "" →
      ∃ r, CreateForm env store (some ⟨question, text⟩) = Run.done r ∧
        r.write = some (DbWrite.insert
          ⟨env.newId, question, some text, some "medium", "draft", env.now, env.now⟩)) ∧
    (∀ (store : Store) (id status : String) (f : Form), store id = some f →
      allowed f.Status status = true →
      ∃ r, UpdateForm env store id (some ⟨some text, status⟩) = Run.done r ∧
        r.write = some (DbWrite.update id (some text) (some "medium") status env.now)) ∧
    (∀ env0 : Env, env0.host = "" → measureUrgency env0 text = Run.exited) := by
  have hm := measureUrgency_failing env text hhost hfail
  refine ⟨hm, ?_, ?_, ?_⟩
  · intro store question hq
    exact CreateForm_urgency env store question text "medium" hq hm
  · intro store id status f hrow hok
    refine ⟨_, UpdateForm_answer env store id ⟨some text, status⟩ f text "medium" hrow hok rfl hm, ?_⟩
    rw [updateExec_write]
  · intro env0 h0
    exact measureUrgency_no_host env0 text h0

/-- C4 amended, at a configured host whose service cannot be reached. -/
theorem measureUrgency_failopen_witness :
    measureUrgency envDown "help" = Run.done "medium" :=
  (measureUrgency_failopen envDown "help" (by decide) rfl).1

/-- C10, as stated, fails: record f1 exists and draft->closed is allowed, yet a
request with the answer urgent does not make the stored answer urgent: with the
sentiment host unset the process ends in the classifier and nothing is stored,
and when `db.Exec` returns an error the stored answer stays fine. -/
theorem UpdateForm_answer_urgency_counterexample :
    (∃ f, storeOne "f1" = some f ∧ allowed f.Status "closed" = true) ∧
    UpdateForm envNoHost storeOne "f1" (some ⟨some "urgent", "closed"⟩) = Run.exited ∧
    (∃ r, UpdateForm envExecDown storeOne "f1" (some ⟨some "urgent", "closed"⟩) = Run.done r ∧
      r.code = 500 ∧ (r.store "f1").map (fun f => f.Answer) = some (some "fine")) := by
  refine ⟨⟨_, rfl, by decide⟩, ?_, ?_⟩
  · exact UpdateForm_answer_exit envNoHost storeOne "f1" ⟨some "urgent", "closed"⟩ _ "urgent" rfl
      (by decide) rfl (measureUrgency_no_host envNoHost "urgent" rfl)
  · have hm : measureUrgency envExecDown "urgent" = Run.done "medium" :=
      measureUrgency_failing envExecDown "urgent" (by decide) rfl
    refine ⟨_, UpdateForm_answer envExecDown storeOne "f1" ⟨some "urgent", "closed"⟩ _ "urgent"
      "medium" rfl (by decide) rfl hm, ?_, ?_⟩
    · exact (updateExec_failed envExecDown storeOne "f1" ⟨some "urgent", "closed"⟩ _ rfl).1
    · rw [(updateExec_failed envExecDown storeOne "f1" ⟨some "urgent", "closed"⟩ _ rfl).2.2]
      rfl

/-- C10, amended: for an existing record and a request that passes the
transition check, an update without answer issues a write with answer and
urgency absent; an update with answer `a`, when the sentiment host is set, gets
a level `u` from the classifier and issues a write with answer `a` and urgency
`u`; whenever `db.Exec` carries the write out the reply is 200 and the stored
answer and urgency are those of the write, whatever the record held before. So
after every successful update the stored urgency is absent exactly when the
stored answer is absent, and a status-only update does not keep a stored answer
or urgency. -/
theorem UpdateForm_answer_urgency (env : Env) (store : Store) (id : String)
    (req : UpdateFormRequest) (f : Form) (hrow : store id = some f)
    (hok : allowed f.Status req.Status = true) :
    (req.Answer = none →
      ∃ r, UpdateForm env store id (some req) = Run.done r ∧
        r.write = some (DbWrite.update id none none req.Status env.now) ∧
        (env.execError (DbWrite.update id none none req.Status env.now) = false →
          r.code = 200 ∧
          r.store id = some { f with Answer := none, Urgency := none, Status := req.Status,
                                     UpdatedAt := env.now })) ∧
    (∀ a : String, req.Answer = some a → env.host ≠ "" →
      ∃ u r, measureUrgency env a = Run.done u ∧
        UpdateForm env store id (some req) = Run.done r ∧
        r.write = some (DbWrite.update id (some a) (some u) req.Status env.now) ∧
        (env.execError (DbWrite.update id (some a) (some u) req.Status env.now) = false →
          r.code = 200 ∧
          r.store id = some { f with Answer := some a, Urgency := some u, Status := req.Status,
                                     UpdatedAt := env.now })) ∧
    (∀ r, UpdateForm env store id (some req) = Run.done r → r.code = 200 →
      ∃ g, r.store id = some g ∧ g.Answer = req.Answer ∧
        (g.Urgency = none ↔ g.Answer = none)) := by
  have ok : ∀ u : Option String,
      env.execError (DbWrite.update id req.Answer u req.Status env.now) = false →
      (updateExec env store id req u).code = 200 ∧
      (updateExec env store id req u).store id =
        some { f with Answer := req.Answer, Urgency := u, Status := req.Status,
                      UpdatedAt := env.now } := by
    intro u hexec
    obtain ⟨h1, h2, _⟩ := updateExec_ok env store id req u hexec
    exact ⟨h1, h2 f hrow⟩
  have succ : ∀ u : Option String, (u = none ↔ req.Answer = none) →
      (updateExec env store id req u).code = 200 →
      ∃ g, (updateExec env store id req u).store id = some g ∧ g.Answer = req.Answer ∧
        (g.Urgency = none ↔ g.Answer = none) := by
    intro u hu hcode
    cases hexec : env.execError (DbWrite.update id req.Answer u req.Status env.now) with
    | true =>
        have h500 := (updateExec_failed env store id req u hexec).1
        rw [h500] at hcode
        exact absurd hcode (by decide)
    | false => exact ⟨_, (ok u hexec).2, rfl, hu⟩
  refine ⟨?_, ?_, ?_⟩
  · intro hans
    refine ⟨_, UpdateForm_no_answer env store id req f hrow hok hans, ?_, ?_⟩
    · rw [updateExec_write, hans]
    · intro hexec
      have h := ok none (by rw [hans]; exact hexec)
      rw [hans] at h
      exact h
  · intro a hans hhost
    obtain ⟨u, hu⟩ := measureUrgency_returns env a hhost
    refine ⟨u, _, hu, UpdateForm_answer env store id req f a u hrow hok hans hu, ?_, ?_⟩
    · rw [updateExec_write, hans]
    · intro hexec
      have h := ok (some u) (by rw [hans]; exact hexec)
      rw [hans] at h
      exact h
  · intro r hr hcode
    rcases Option.eq_none_or_eq_some req.Answer with hans | ⟨a, hans⟩
    · rw [UpdateForm_no_answer env store id req f hrow hok hans] at hr
      injection hr with hr
      subst hr
      exact succ none (by simp [hans]) hcode
    · cases hurg : measureUrgency env a with
      | exited =>
          rw [UpdateForm_answer_exit env store id req f a hrow hok hans hurg] at hr
          cases hr
      | done u =>
          rw [UpdateForm_answer env store id req f a u hrow hok hans hurg] at hr
          injection hr with hr
          subst hr
          exact succ (some u) (by simp [hans]) hcode

/-- C10 amended, at record f1 (answer fine, urgency low): a status-only update
to filled leaves the record without answer and without urgency, and an update
to closed with the answer urgent, the sentiment service being down, stores that
answer with urgency medium. -/
theorem UpdateForm_answer_urgency_witness :
    (∃ r, UpdateForm envDown storeOne "f1" (some ⟨none, "filled"⟩) = Run.done r ∧
      r.write = some (DbWrite.update "f1" none none "filled" 7) ∧
      (envDown.execError (DbWrite.update "f1" none none "filled" 7) = false →
        r.code = 200 ∧
        r.store "f1" = some ⟨"f1", "How are you?", none, none, "filled", 1, 7⟩)) ∧
    (∃ u r, measureUrgency envDown "urgent" = Run.done u ∧
      UpdateForm envDown storeOne "f1" (some ⟨some "urgent", "closed"⟩) = Run.done r ∧
      r.write = some (DbWrite.update "f1" (some "urgent") (some u) "closed" 7) ∧
      (envDown.execError (DbWrite.update "f1" (some "urgent") (some u) "closed" 7) = false →
        r.code = 200 ∧
        r.store "f1" = some ⟨"f1", "How are you?", some "urgent", some u, "closed", 1, 7⟩)) :=
  ⟨(UpdateForm_answer_urgency envDown storeOne "f1" ⟨none, "filled"⟩
      ⟨"f1", "How are you?", some "fine", some "low", "draft", 1, 1⟩ rfl (by decide)).1 rfl,
   (UpdateForm_answer_urgency envDown storeOne "f1" ⟨some "urgent", "closed"⟩
      ⟨"f1", "How are you?", some "fine", some "low", "draft", 1, 1⟩ rfl (by decide)).2.1
      "urgent" rfl (by decide)⟩

/-! ## Theorems: the direction parameter -/

theorem char_le_iff (a b : Char) : a ≤ b ↔ a.toNat ≤ b.toNat := by
  rw [Char.le_def]
  exact Iff.rfl

theorem lower_range_cases (c : Char) (h : 'a' ≤ c ∧ c ≤ 'z') :
    c ∈ "abcdefghijklmnopqrstuvwxyz".data := by
  rw [char_le_iff, char_le_iff] at h
  have h1 : 97 ≤ c.toNat := h.1
  have h2 : c.toNat ≤ 122 := h.2
  have hc : c = Char.ofNat c.toNat := (Char.ofNat_toNat c).symm
  generalize c.toNat = n at h1 h2 hc
  subst hc
  interval_cases n <;> decide

/-- The runes whose upper case is one of the letters of ASC and DESC. -/
theorem toUpperRune_sources (c : Char) (h : toUpperRune c ∈ "ASCDE".data) :
    c ∈ [ 'a', 'A', 's', 'S', Char.ofNat 0x17F, 'c', 'C', 'd', 'D', 'e', 'E'] := by
  unfold toUpperRune at h
  split_ifs at h with h1 h2 h3
  · have hmem := lower_range_cases c h1
    simp only [List.mem_cons, List.mem_singleton] at hmem
    rcases hmem with e | e | e | e | e | e | e | e | e | e | e | e | e | e | e | e | e | e
        | e | e | e | e | e | e | e | e | e <;>
      first
      | (subst e; decide)
      | (exfalso; subst e; revert h; decide)
      | (exfalso; simp at e)
  · subst h2; decide
  · exfalso; revert h; decide
  · simp only [List.mem_cons, List.mem_singleton] at h
    rcases h with e | e | e | e | e | e <;>
      first
      | (subst e; decide)
      | (exfalso; simp at e)

theorem toUpperRune_eq_A (c : Char) : toUpperRune c = 'A' ↔ c = 'a' ∨ c = 'A' := by
  constructor
  · intro h
    have hmem := toUpperRune_sources c (by rw [h]; decide)
    simp only [List.mem_cons, List.mem_singleton] at hmem
    rcases hmem with e | e | e | e | e | e | e | e | e | e | e | e <;>
      first
      | (left; exact e)
      | (right; exact e)
      | (exfalso; subst e; revert h; decide)
      | (exfalso; simp at e)
  · rintro (e | e) <;> subst e <;> decide

theorem toUpperRune_eq_C (c : Char) : toUpperRune c = 'C' ↔ c = 'c' ∨ c = 'C' := by
  constructor
  · intro h
    have hmem := toUpperRune_sources c (by rw [h]; decide)
    simp only [List.mem_cons, List.mem_singleton] at hmem
    rcases hmem with e | e | e | e | e | e | e | e | e | e | e | e <;>
      first
      | (left; exact e)
      | (right; exact e)
      | (exfalso; subst e; revert h; decide)
      | (exfalso; simp at e)
  · rintro (e | e) <;> subst e <;> decide

theorem toUpperRune_eq_D (c : Char) : toUpperRune c = 'D' ↔ c = 'd' ∨ c = 'D' := by
  constructor
  · intro h
    have hmem := toUpperRune_sources c (by rw [h]; decide)
    simp only [List.mem_cons, List.mem_singleton] at hmem
    rcases hmem with e | e | e | e | e | e | e | e | e | e | e | e <;>
      first
      | (left; exact e)
      | (right; exact e)
      | (exfalso; subst e; revert h; decide)
      | (exfalso; simp at e)
  · rintro (e | e) <;> subst e <;> decide

theorem toUpperRune_eq_E (c : Char) : toUpperRune c = 'E' ↔ c = 'e' ∨ c = 'E' := by
  constructor
  · intro h
    have hmem := toUpperRune_sources c (by rw [h]; decide)
    simp only [List.mem_cons, List.mem_singleton] at hmem
    rcases hmem with e | e | e | e | e | e | e | e | e | e | e | e <;>
      first
      | (left; exact e)
      | (right; exact e)
      | (exfalso; subst e; revert h; decide)
      | (exfalso; simp at e)
  · rintro (e | e) <;> subst e <;> decide

theorem toUpperRune_eq_S (c : Char) :
    toUpperRune c = 'S' ↔ c = 's' ∨ c = 'S' ∨ c = Char.ofNat 0x17F := by
  constructor
  · intro h
    have hmem := toUpperRune_sources c (by rw [h]; decide)
    simp only [List.mem_cons, List.mem_singleton] at hmem
    rcases hmem with e | e | e | e | e | e | e | e | e | e | e | e <;>
      first
      | (left; exact e)
      | (right; left; exact e)
      | (right; right; exact e)
      | (exfalso; subst e; revert h; decide)
      | (exfalso; simp at e)
  · rintro (e | e | e) <;> subst e <;> decide

theorem ToUpper_eq_ASC (d : String) : ToUpper d = "ASC" ↔ spellsAsc d := by
  unfold ToUpper spellsAsc
  rw [String.ext_iff]
  show List.map toUpperRune d.data = [ 'A', 'S', 'C'] ↔ _
  constructor
  · intro h
    match hd : d.data, h with
    | [a, s, c], h =>
        simp only [List.map_cons, List.map_nil, List.cons.injEq, and_true] at h
        exact ⟨a, s, c, rfl, (toUpperRune_eq_A a).1 h.1, (toUpperRune_eq_S s).1 h.2.1,
          (toUpperRune_eq_C c).1 h.2.2⟩
    | [], h => simp at h
    | [_], h => simp at h
    | [_, _], h => simp at h
    | _ :: _ :: _ :: _ :: _, h => simp at h
  · rintro ⟨a, s, c, hd, ha, hs, hc⟩
    rw [hd]
    simp only [List.map_cons, List.map_nil, (toUpperRune_eq_A a).2 ha, (toUpperRune_eq_S s).2 hs,
      (toUpperRune_eq_C c).2 hc]

theorem ToUpper_eq_DESC (d : String) : ToUpper d = "DESC" ↔ spellsDesc d := by
  unfold ToUpper spellsDesc
  rw [String.ext_iff]
  show List.map toUpperRune d.data = [ 'D', 'E', 'S', 'C'] ↔ _
  constructor
  · intro h
    match hd : d.data, h with
    | [x, e, s, c], h =>
        simp only [List.map_cons, List.map_nil, List.cons.injEq, and_true] at h
        exact ⟨x, e, s, c, rfl, (toUpperRune_eq_D x).1 h.1, (toUpperRune_eq_E e).1 h.2.1,
          (toUpperRune_eq_S s).1 h.2.2.1, (toUpperRune_eq_C c).1 h.2.2.2⟩
    | [], h => simp at h
    | [_], h => simp at h
    | [_, _], h => simp at h
    | [_, _, _], h => simp at h
    | _ :: _ :: _ :: _ :: _ :: _, h => simp at h
  · rintro ⟨x, e, s, c, hd, hx, he, hs, hc⟩
    rw [hd]
    simp only [List.map_cons, List.map_nil, (toUpperRune_eq_D x).2 hx, (toUpperRune_eq_E e).2 he,
      (toUpperRune_eq_S s).2 hs, (toUpperRune_eq_C c).2 hc]

theorem spellsAsc_not_spellsDesc (d : String) (h : spellsAsc d) : ¬ spellsDesc d := by
  rintro ⟨x, e, s, c, hd, _⟩
  obtain ⟨a, s', c', hd', _⟩ := h
  rw [hd] at hd'
  simp at hd'

theorem normDirection_asc (d : String) (h : spellsAsc d) : normDirection d = "ASC" := by
  unfold normDirection
  simp [(ToUpper_eq_ASC d).2 h]

theorem normDirection_desc (d : String) (h : ¬ spellsAsc d) : normDirection d = "DESC" := by
  unfold normDirection
  have h1 : ToUpper d ≠ "ASC" := fun e => h ((ToUpper_eq_ASC d).1 e)
  by_cases h2 : ToUpper d = "DESC"
  · simp [h2]
  · simp [h1, h2]

theorem normDirection_cases (d : String) : normDirection d = "ASC" ∨ normDirection d = "DESC" := by
  by_cases h : spellsAsc d
  · exact Or.inl (normDirection_asc d h)
  · exact Or.inr (normDirection_desc d h)

/-! ## Theorems: the order clause -/

theorem orderClause_of_column (sort d : String) (hs : sort ∈ columnSorts) :
    orderClause sort d = "ORDER BY " ++ sort ++ " " ++ normDirection d := by
  have hne : sort ≠ "" := by
    rintro rfl
    revert hs
    decide
  have hcol : sort = "question" ∨ sort = "answer" ∨ sort = "status" ∨ sort = "created_at" := by
    simpa [columnSorts] using hs
  unfold orderClause
  simp only [hne, ne_eq, not_false_eq_true, if_true, hcol]

theorem orderClause_of_urgency (d : String) :
    orderClause "urgency" d = rankOrder ++ normDirection d := by
  unfold orderClause
  rw [if_pos (by decide), if_pos rfl, if_neg (by decide)]

theorem orderClause_of_other (sort d : String) (hs : sort ∉ columnSorts)
    (hu : sort ≠ "urgency") : orderClause sort d = rankOrder := by
  have hcol : ¬ (sort = "question" ∨ sort = "answer" ∨ sort = "status" ∨ sort = "created_at") := by
    simpa [columnSorts] using hs
  unfold orderClause
  by_cases hne : sort = ""
  · simp [hne]
  · simp only [hne, ne_eq, not_false_eq_true, if_true, hu, if_false, hcol]

theorem column_clause_has_no_case (sort dir : String) (hs : sort ∈ columnSorts)
    (hd : dir = "ASC" ∨ dir = "DESC") :
    ¬ ("CASE".data <:+: ("ORDER BY " ++ sort ++ " " ++ dir).data) := by
  have hcol : sort = "question" ∨ sort = "answer" ∨ sort = "status" ∨ sort = "created_at" := by
    simpa [columnSorts] using hs
  rcases hcol with e | e | e | e <;> rcases hd with f | f <;> subst e <;> subst f <;> decide

/-- C8: for a sort value among question, answer, status, created_at and every
direction parameter d, the order clause is exactly ORDER BY, the sort value and
ASC when d spells asc (case ignored), DESC when d spells desc (case ignored) and
DESC for every other d, the empty one included; no CASE expression occurs in it,
so the field sort replaces the urgency rank; and sort=status with direction=asc
gives ORDER BY status ASC. -/
theorem orderClause_column (sort d : String) (hs : sort ∈ columnSorts) :
    (spellsAsc d → orderClause sort d = "ORDER BY " ++ sort ++ " ASC") ∧
    (spellsDesc d → orderClause sort d = "ORDER BY " ++ sort ++ " DESC") ∧
    (¬ spellsAsc d → ¬ spellsDesc d → orderClause sort d = "ORDER BY " ++ sort ++ " DESC") ∧
    (d = "" → orderClause sort d = "ORDER BY " ++ sort ++ " DESC") ∧
    ¬ ("CASE".data <:+: (orderClause sort d).data) ∧
    orderClause "status" "asc" = "ORDER BY status ASC" := by
  have hform := orderClause_of_column sort d hs
  have hasc : ∀ s : String, s ++ " " ++ "ASC" = s ++ " ASC" := by
    intro s; rw [String.append_assoc]; rfl
  have hdesc : ∀ s : String, s ++ " " ++ "DESC" = s ++ " DESC" := by
    intro s; rw [String.append_assoc]; rfl
  refine ⟨?_, ?_, ?_, ?_, ?_, ?_⟩
  · intro h
    rw [hform, normDirection_asc d h, hasc]
  · intro h
    rw [hform, normDirection_desc d (fun ha => spellsAsc_not_spellsDesc d ha h), hdesc]
  · intro h _
    rw [hform, normDirection_desc d h, hdesc]
  · intro h
    subst h
    have hn : normDirection "" = "DESC" := by decide
    rw [hform, hn, hdesc]
  · rw [hform]
    exact column_clause_has_no_case sort _ hs (normDirection_cases d)
  · decide

/-- C8, at sort=answer with direction=Desc. -/
theorem orderClause_column_witness :
    orderClause "answer" "Desc" = "ORDER BY " ++ "answer" ++ " DESC" :=
  (orderClause_column "answer" "Desc" (by decide)).2.1
    ⟨ 'D', 'e', 's', 'c', rfl, Or.inr rfl, Or.inl rfl, Or.inl rfl, Or.inl rfl⟩

theorem rankOrder_text :
    rankOrder =
      "ORDER BY CASE urgency WHEN 'high' THEN 1 WHEN 'medium' THEN 2 WHEN 'low' THEN 3 ELSE 4 END " :=
  rfl

theorem rankOrder_asc_text :
    rankOrder ++ "ASC" =
      "ORDER BY CASE urgency WHEN 'high' THEN 1 WHEN 'medium' THEN 2 WHEN 'low' THEN 3 ELSE 4 END ASC" := by
  decide

theorem rankOrder_desc_text :
    rankOrder ++ "DESC" =
      "ORDER BY CASE urgency WHEN 'high' THEN 1 WHEN 'medium' THEN 2 WHEN 'low' THEN 3 ELSE 4 END DESC" := by
  decide

/-- The store's parse of the three rank clauses `ListForms` can build. -/
theorem parseCaseOrder_rank :
    parseCaseOrder
        "ORDER BY CASE urgency WHEN 'high' THEN 1 WHEN 'medium' THEN 2 WHEN 'low' THEN 3 ELSE 4 END " =
      some ⟨"urgency", [("high", 1), ("medium", 2), ("low", 3)], 4, false⟩ ∧
    parseCaseOrder
        "ORDER BY CASE urgency WHEN 'high' THEN 1 WHEN 'medium' THEN 2 WHEN 'low' THEN 3 ELSE 4 END ASC" =
      some ⟨"urgency", [("high", 1), ("medium", 2), ("low", 3)], 4, false⟩ ∧
    parseCaseOrder
        "ORDER BY CASE urgency WHEN 'high' THEN 1 WHEN 'medium' THEN 2 WHEN 'low' THEN 3 ELSE 4 END DESC" =
      some ⟨"urgency", [("high", 1), ("medium", 2), ("low", 3)], 4, true⟩ := by
  decide

/-- The `CASE` expression of the rank clause gives a row the rank of its
urgency. -/
theorem rank_case_value (row : Form) (descending : Bool) :
    CaseOrder.value ⟨"urgency", [("high", 1), ("medium", 2), ("low", 3)], 4, descending⟩ row =
      (urgencyRank row.Urgency : Int) := by
  have hf : fieldText row "urgency" = row.Urgency := by
    unfold fieldText
    rw [if_neg (by decide), if_neg (by decide), if_pos rfl]
  unfold CaseOrder.value
  simp only [hf]
  cases hu : row.Urgency with
  | none => simp [urgencyRank]
  | some u =>
      by_cases h1 : u = "high"
      · subst h1
        simp [urgencyRank, List.find?]
      · by_cases h2 : u = "medium"
        · subst h2
          have e : ¬ ("high" = "medium") := by decide
          simp [urgencyRank, List.find?, e]
        · by_cases h3 : u = "low"
          · subst h3
            have e1 : ¬ ("high" = "low") := by decide
            have e2 : ¬ ("medium" = "low") := by decide
            have e3 : ¬ ("low" = "high") := by decide
            have e4 : ¬ ("low" = "medium") := by decide
            simp [urgencyRank, List.find?, e1, e2, e3, e4]
          · have g1 : ¬ ("high" = u) := fun e => h1 e.symm
            have g2 : ¬ ("medium" = u) := fun e => h2 e.symm
            have g3 : ¬ ("low" = u) := fun e => h3 e.symm
            simp [urgencyRank, List.find?, h1, h2, h3, g1, g2, g3]

theorem highFirst_of_pairwise (rows : List Form)
    (h : rows.Pairwise (fun a b =>
      (urgencyRank a.Urgency : Int) ≤ (urgencyRank b.Urgency : Int))) :
    highFirst rows := by
  rw [List.pairwise_iff_getElem] at h
  intro i j hi hj hlt
  by_contra hij
  rcases Nat.lt_or_eq_of_le (Nat.le_of_not_lt hij) with hji | hji
  · have := h j i hj hi hji
    omega
  · subst hji
    omega

theorem highLast_of_pairwise (rows : List Form)
    (h : rows.Pairwise (fun a b =>
      (urgencyRank b.Urgency : Int) ≤ (urgencyRank a.Urgency : Int))) :
    highLast rows := by
  rw [List.pairwise_iff_getElem] at h
  intro i j hi hj hlt
  by_contra hij
  rcases Nat.lt_or_eq_of_le (Nat.le_of_not_lt hij) with hji | hji
  · have := h i j hi hj hji
    omega
  · subst hji
    omega

/-- What an ascending rank clause means for the rows. -/
theorem rank_clause_ascending (clause : String)
    (hp : parseCaseOrder clause =
      some ⟨"urgency", [("high", 1), ("medium", 2), ("low", 3)], 4, false⟩) :
    (∀ row, clauseRank clause row = some (urgencyRank row.Urgency : Int)) ∧
    (∀ rows, followsOrderClause clause rows → highFirst rows) := by
  constructor
  · intro row
    unfold clauseRank
    rw [hp, Option.map_some', rank_case_value]
  · intro rows hrows
    unfold followsOrderClause at hrows
    rw [hp] at hrows
    simp only [Bool.false_eq_true, if_false, rank_case_value] at hrows
    exact highFirst_of_pairwise rows hrows

/-- What a descending rank clause means for the rows. -/
theorem rank_clause_descending (clause : String)
    (hp : parseCaseOrder clause =
      some ⟨"urgency", [("high", 1), ("medium", 2), ("low", 3)], 4, true⟩) :
    (∀ row, clauseRank clause row = some (urgencyRank row.Urgency : Int)) ∧
    (∀ rows, followsOrderClause clause rows → highLast rows) := by
  constructor
  · intro row
    unfold clauseRank
    rw [hp, Option.map_some', rank_case_value]
  · intro rows hrows
    unfold followsOrderClause at hrows
    rw [hp] at hrows
    simp only [if_true, rank_case_value] at hrows
    exact highLast_of_pairwise rows hrows

/-- C9: for a sort value outside question, answer, status, created_at the order
clause is the urgency-rank `CASE` expression, whose value on a row, read from
the clause text, is 1 for high, 2 for medium, 3 for low and 4 for any other or
absent urgency. With a sort value other than urgency the clause carries no
direction, whatever the direction parameter, so rows that follow it come by
rising rank: all high before all medium before all low before absent or
unknown. With sort=urgency the normalised direction follows the expression:
asc gives the same order, every other direction (DESC) the reverse, absent or
unknown first and high last. -/
theorem orderClause_rank (sort d : String) (hs : sort ∉ columnSorts) :
    (urgencyRank (some "high") = 1 ∧ urgencyRank (some "medium") = 2 ∧
      urgencyRank (some "low") = 3 ∧ urgencyRank none = 4 ∧
      ∀ u : String, u ≠ "high" → u ≠ "medium" → u ≠ "low" → urgencyRank (some u) = 4) ∧
    (sort ≠ "urgency" →
      orderClause sort d =
        "ORDER BY CASE urgency WHEN 'high' THEN 1 WHEN 'medium' THEN 2 WHEN 'low' THEN 3 ELSE 4 END " ∧
      (∀ row, clauseRank (orderClause sort d) row = some (urgencyRank row.Urgency : Int)) ∧
      ∀ rows, followsOrderClause (orderClause sort d) rows → highFirst rows) ∧
    (sort = "urgency" → spellsAsc d →
      orderClause sort d =
        "ORDER BY CASE urgency WHEN 'high' THEN 1 WHEN 'medium' THEN 2 WHEN 'low' THEN 3 ELSE 4 END ASC" ∧
      (∀ row, clauseRank (orderClause sort d) row = some (urgencyRank row.Urgency : Int)) ∧
      ∀ rows, followsOrderClause (orderClause sort d) rows → highFirst rows) ∧
    (sort = "urgency" → ¬ spellsAsc d →
      orderClause sort d =
        "ORDER BY CASE urgency WHEN 'high' THEN 1 WHEN 'medium' THEN 2 WHEN 'low' THEN 3 ELSE 4 END DESC" ∧
      (∀ row, clauseRank (orderClause sort d) row = some (urgencyRank row.Urgency : Int)) ∧
      ∀ rows, followsOrderClause (orderClause sort d) rows → highLast rows) := by
  refine ⟨⟨by decide, by decide, by decide, by decide, ?_⟩, ?_, ?_, ?_⟩
  · intro u h1 h2 h3
    unfold urgencyRank
    simp [h1, h2, h3]
  · intro hu
    have hc : orderClause sort d =
        "ORDER BY CASE urgency WHEN 'high' THEN 1 WHEN 'medium' THEN 2 WHEN 'low' THEN 3 ELSE 4 END " := by
      rw [orderClause_of_other sort d hs hu, rankOrder_text]
    refine ⟨hc, ?_⟩
    rw [hc]
    exact rank_clause_ascending _ parseCaseOrder_rank.1
  · rintro rfl ha
    have hc : orderClause "urgency" d =
        "ORDER BY CASE urgency WHEN 'high' THEN 1 WHEN 'medium' THEN 2 WHEN 'low' THEN 3 ELSE 4 END ASC" := by
      rw [orderClause_of_urgency, normDirection_asc d ha, rankOrder_asc_text]
    refine ⟨hc, ?_⟩
    rw [hc]
    exact rank_clause_ascending _ parseCaseOrder_rank.2.1
  · rintro rfl ha
    have hc : orderClause "urgency" d =
        "ORDER BY CASE urgency WHEN 'high' THEN 1 WHEN 'medium' THEN 2 WHEN 'low' THEN 3 ELSE 4 END DESC" := by
      rw [orderClause_of_urgency, normDirection_desc d ha, rankOrder_desc_text]
    refine ⟨hc, ?_⟩
    rw [hc]
    exact rank_clause_descending _ parseCaseOrder_rank.2.2

/-- C9, at an unrecognised sort value with a direction: the clause is the bare
urgency rank, and rows that follow it have high first. -/
theorem orderClause_rank_witness :
    orderClause "priority" "desc" =
      "ORDER BY CASE urgency WHEN 'high' THEN 1 WHEN 'medium' THEN 2 WHEN 'low' THEN 3 ELSE 4 END " ∧
    (∀ row, clauseRank (orderClause "priority" "desc") row =
      some (urgencyRank row.Urgency : Int)) ∧
    ∀ rows, followsOrderClause (orderClause "priority" "desc") rows → highFirst rows :=
  (orderClause_rank "priority" "desc" (by decide)).2.1 (by decide)

/-! ## Theorems: filters, placeholders and arguments -/

theorem buildFilters_eq (q : String → String) :
    buildFilters q =
      ⟨(activeFilters q).enum.map (fun p => p.2.1 ++ " ILIKE $" ++ Itoa ((p.1 : Int) + 1)),
       (activeFilters q).map (fun p => Arg.str ("%" ++ p.2 ++ "%")),
       ((activeFilters q).length : Int) + 1⟩ := by
  unfold buildFilters activeFilters filterFields
  by_cases h1 : q "question" = "" <;> by_cases h2 : q "answer" = "" <;>
    by_cases h3 : q "urgency" = "" <;> by_cases h4 : q "status" = "" <;>
    simp [filterStep, h1, h2, h3, h4, List.enum, List.enumFrom]

theorem likeMatch_cons (p : Char) (ps text : List Char) :
    likeMatch (p :: ps) text =
      if p = '%' then text.tails.any (fun rest => likeMatch ps rest)
      else if p = '_' then
        match text with
        | [] => false
        | _ :: rest => likeMatch ps rest
      else if p = '\\' then
        match ps, text with
        | e :: ps', c :: rest => decide (c = e) && likeMatch ps' rest
        | _, _ => false
      else
        match text with
        | [] => false
        | c :: rest => decide (c = p) && likeMatch ps rest := by
  cases ps <;> cases text <;> rfl

theorem likeMatch_literal (c : Char) (ps text : List Char) (hc : likeSpecial c = false) :
    likeMatch (c :: ps) text =
      (match text with
       | [] => false
       | x :: rest => decide (x = c) && likeMatch ps rest) := by
  have h1 : c ≠ '%' := by
    rintro rfl; revert hc; decide
  have h2 : c ≠ '_' := by
    rintro rfl; revert hc; decide
  have h3 : c ≠ '\\' := by
    rintro rfl; revert hc; decide
  rw [likeMatch_cons, if_neg h1, if_neg h2, if_neg h3]

theorem likeMatch_literals (v rest text : List Char) (hv : ∀ c ∈ v, likeSpecial c = false) :
    likeMatch (v ++ rest) text = true ↔ ∃ t, text = v ++ t ∧ likeMatch rest t = true := by
  induction v generalizing text with
  | nil => simp
  | cons c v ih =>
      have hc : likeSpecial c = false := hv c (List.mem_cons_self c v)
      have hv' : ∀ x ∈ v, likeSpecial x = false := fun x hx => hv x (List.mem_cons_of_mem c hx)
      rw [List.cons_append, likeMatch_literal c (v ++ rest) text hc]
      cases text with
      | nil => simp
      | cons x tl =>
          simp only [Bool.and_eq_true, decide_eq_true_eq, List.cons_append, List.cons.injEq]
          rw [ih tl hv']
          constructor
          · rintro ⟨rfl, t, rfl, ht⟩
            exact ⟨t, ⟨rfl, rfl⟩, ht⟩
          · rintro ⟨t, ⟨rfl, rfl⟩, ht⟩
            exact ⟨rfl, t, rfl, ht⟩

theorem likeMatch_percent (ps text : List Char) :
    likeMatch ('%' :: ps) text = true ↔ ∃ r, r <:+ text ∧ likeMatch ps r = true := by
  rw [likeMatch_cons, if_pos rfl, List.any_eq_true]
  simp only [List.mem_tails]

theorem likeMatch_percent_end (text : List Char) : likeMatch [ '%'] text = true := by
  rw [likeMatch_percent]
  exact ⟨[], List.nil_suffix, rfl⟩

theorem likeMatch_wrapped (v text : List Char) (hv : ∀ c ∈ v, likeSpecial c = false) :
    likeMatch ('%' :: (v ++ [ '%'])) text = true ↔ v <:+: text := by
  rw [likeMatch_percent]
  constructor
  · rintro ⟨r, ⟨s, hs⟩, hr⟩
    obtain ⟨t, ht, _⟩ := (likeMatch_literals v [ '%'] r hv).1 hr
    refine ⟨s, t, ?_⟩
    rw [← hs, ht, List.append_assoc]
  · rintro ⟨s, t, hst⟩
    refine ⟨v ++ t, ⟨s, ?_⟩, ?_⟩
    · rw [← hst, List.append_assoc]
    · exact (likeMatch_literals v [ '%'] (v ++ t) hv).2 ⟨t, rfl, likeMatch_percent_end t⟩

theorem upper_range_cases (c : Char) (h : 'A' ≤ c ∧ c ≤ 'Z') :
    c ∈ "ABCDEFGHIJKLMNOPQRSTUVWXYZ".data := by
  rw [char_le_iff, char_le_iff] at h
  have h1 : 65 ≤ c.toNat := h.1
  have h2 : c.toNat ≤ 90 := h.2
  have hc : c = Char.ofNat c.toNat := (Char.ofNat_toNat c).symm
  generalize c.toNat = n at h1 h2 hc
  subst hc
  interval_cases n <;> decide

theorem lowerRune_not_special (c : Char) (hc : likeSpecial c = false) :
    likeSpecial (lowerRune c) = false := by
  unfold lowerRune
  split_ifs with h
  · have hmem := upper_range_cases c h
    simp only [List.mem_cons, List.mem_singleton] at hmem
    rcases hmem with e | e | e | e | e | e | e | e | e | e | e | e | e | e | e | e | e | e
        | e | e | e | e | e | e | e | e | e <;>
      first
      | (subst e; decide)
      | (exfalso; simp at e)
  · exact hc

theorem ilike_wrapped (text value : String) (hv : ∀ c ∈ value.data, likeSpecial c = false) :
    ilike text ("%" ++ value ++ "%") = true ↔ containsFold text value := by
  unfold ilike containsFold
  have hpat : ("%" ++ value ++ "%").data.map lowerRune =
      '%' :: (value.data.map lowerRune ++ [ '%']) := by
    simp only [String.data_append, List.map_append]
    rfl
  rw [hpat]
  apply likeMatch_wrapped
  intro c hc
  obtain ⟨x, hx, rfl⟩ := List.mem_map.1 hc
  exact lowerRune_not_special x (hv x hx)

theorem buildFilters_shape (q1 q2 : String → String)
    (h : ∀ f ∈ filterFields, (q1 f = "" ↔ q2 f = "")) :
    (buildFilters q1).filters = (buildFilters q2).filters ∧
    (buildFilters q1).i = (buildFilters q2).i := by
  have c1 : (q2 "question" = "") = (q1 "question" = "") :=
    propext (h "question" (by decide)).symm
  have c2 : (q2 "answer" = "") = (q1 "answer" = "") := propext (h "answer" (by decide)).symm
  have c3 : (q2 "urgency" = "") = (q1 "urgency" = "") := propext (h "urgency" (by decide)).symm
  have c4 : (q2 "status" = "") = (q1 "status" = "") := propext (h "status" (by decide)).symm
  unfold buildFilters filterFields
  by_cases h1 : q1 "question" = "" <;> by_cases h2 : q1 "answer" = "" <;>
    by_cases h3 : q1 "urgency" = "" <;> by_cases h4 : q1 "status" = "" <;>
    simp [filterStep, c1, c2, c3, c4, h1, h2, h3, h4]

theorem orderClause_shape (s1 d1 s2 d2 : String)
    (hsort : s1 ∈ columnSorts ∨ s2 ∈ columnSorts → s1 = s2)
    (hurg : s1 = "urgency" ↔ s2 = "urgency")
    (hdir : normDirection d1 = normDirection d2) :
    orderClause s1 d1 = orderClause s2 d2 := by
  by_cases hc : s1 ∈ columnSorts
  · have e := hsort (Or.inl hc)
    subst e
    rw [orderClause_of_column s1 d1 hc, orderClause_of_column s1 d2 hc, hdir]
  · have hc2 : s2 ∉ columnSorts := by
      intro h2
      have e := hsort (Or.inr h2)
      subst e
      exact hc h2
    by_cases hu : s1 = "urgency"
    · have hu2 := hurg.1 hu
      subst hu
      rw [hu2, orderClause_of_urgency, orderClause_of_urgency, hdir]
    · have hu2 : s2 ≠ "urgency" := fun e => hu (hurg.2 e)
      rw [orderClause_of_other s1 d1 hc hu, orderClause_of_other s2 d2 hc2 hu2]

theorem listPlan_args (q : String → String) :
    (listPlan q).args =
      (activeFilters q).map (fun p => Arg.str ("%" ++ p.2 ++ "%")) ++
        [Arg.int (paging q).limit, Arg.int (paging q).offset] := by
  unfold listPlan
  simp only [buildFilters_eq]

theorem wrapInt64_id (x : Int) (h1 : minInt64 ≤ x) (h2 : x ≤ maxInt64) : wrapInt64 x = x := by
  unfold wrapInt64
  unfold minInt64 at h1
  unfold maxInt64 at h2
  rw [Int.emod_eq_of_lt (by omega) (by omega)]
  omega

theorem clampPaging_effective (page limit : Int) :
    (clampPaging page limit).page = (if 1 ≤ page then page else 1) ∧
    (clampPaging page limit).limit = (if 1 ≤ limit ∧ limit ≤ 100 then limit else 10) := by
  unfold clampPaging
  constructor
  · by_cases h : page < 1
    · simp [h, not_le.mpr h]
    · simp [h, not_lt.mp h]
  · by_cases h : limit < 1 ∨ limit > 100
    · have h' : ¬ (1 ≤ limit ∧ limit ≤ 100) := by omega
      simp [h, h']
    · have h' : 1 ≤ limit ∧ limit ≤ 100 := by omega
      simp [h, h']

/-- Where the product stays within `int`, the offset is the product. -/
theorem clampPaging_offset_exact (page limit : Int) (hp : page ≤ maxInt64)
    (hprod : ((clampPaging page limit).page - 1) * (clampPaging page limit).limit ≤ maxInt64) :
    (clampPaging page limit).offset =
      ((clampPaging page limit).page - 1) * (clampPaging page limit).limit ∧
    0 ≤ (clampPaging page limit).offset := by
  obtain ⟨e1, e2⟩ := clampPaging_effective page limit
  have hpage : 1 ≤ (clampPaging page limit).page ∧ (clampPaging page limit).page ≤ maxInt64 := by
    rw [e1]; unfold maxInt64 at hp ⊢; split_ifs <;> omega
  have hlimit : 1 ≤ (clampPaging page limit).limit := by
    rw [e2]; split_ifs <;> omega
  have hnn : 0 ≤ ((clampPaging page limit).page - 1) * (clampPaging page limit).limit :=
    Int.mul_nonneg (by omega) (by omega)
  have hoff : (clampPaging page limit).offset =
      wrapInt64 (wrapInt64 ((clampPaging page limit).page - 1) * (clampPaging page limit).limit) := rfl
  have hw1 : wrapInt64 ((clampPaging page limit).page - 1) = (clampPaging page limit).page - 1 := by
    apply wrapInt64_id
    · unfold minInt64; omega
    · unfold maxInt64 at hpage ⊢; omega
  rw [hoff, hw1, wrapInt64_id _ (by unfold minInt64; omega) hprod]
  exact ⟨rfl, hnn⟩

/-- C5: the offset is not the product (page - 1) x limit for every page and
limit. At page=9223372036854775807, the largest `int` (which `Atoi` also yields
for a page number out of range), with no limit the effective page is that
number and the effective limit 10, the product is 92233720368547758060, and
the offset bound to the query is -20. -/
theorem offset_wraps_at_max_page :
    Atoi (qMaxPage "page") = maxInt64 ∧ Atoi "99999999999999999999" = maxInt64 ∧
    Atoi (qMaxPage "limit") = 0 ∧
    (listPlan qMaxPage).page = 9223372036854775807 ∧ (listPlan qMaxPage).limit = 10 ∧
    ((listPlan qMaxPage).page - 1) * (listPlan qMaxPage).limit = 92233720368547758060 ∧
    (listPlan qMaxPage).args = [Arg.int 10, Arg.int (-20)] := by
  decide

/-- C6: the query text of `ListForms` is the same for two requests that give
non-empty values to the same filter fields and have the same sort and direction
parameters, whatever the filter values, page and limit; more sharply, the text
depends on a request only through which filters are non-empty, the sort value
when it is one of question, answer, status, created_at, whether the sort value
is urgency, and the normalised direction, which is ASC or DESC; the filter
values, the limit and the offset are in the bound argument list. -/
theorem query_text_injection_safe :
    (∀ q1 q2 : String → String,
      (∀ f ∈ filterFields, (q1 f = "" ↔ q2 f = "")) →
      q1 "sort" = q2 "sort" → q1 "direction" = q2 "direction" →
      (listPlan q1).query = (listPlan q2).query) ∧
    (∀ q1 q2 : String → String,
      (∀ f ∈ filterFields, (q1 f = "" ↔ q2 f = "")) →
      (q1 "sort" ∈ columnSorts ∨ q2 "sort" ∈ columnSorts → q1 "sort" = q2 "sort") →
      (q1 "sort" = "urgency" ↔ q2 "sort" = "urgency") →
      normDirection (q1 "direction") = normDirection (q2 "direction") →
      (listPlan q1).query = (listPlan q2).query) ∧
    (∀ q : String → String,
      normDirection (q "direction") = "ASC" ∨ normDirection (q "direction") = "DESC") ∧
    (∀ q : String → String,
      (listPlan q).args =
        (activeFilters q).map (fun p => Arg.str ("%" ++ p.2 ++ "%")) ++
          [Arg.int (paging q).limit, Arg.int (paging q).offset]) := by
  have sharp : ∀ q1 q2 : String → String,
      (∀ f ∈ filterFields, (q1 f = "" ↔ q2 f = "")) →
      (q1 "sort" ∈ columnSorts ∨ q2 "sort" ∈ columnSorts → q1 "sort" = q2 "sort") →
      (q1 "sort" = "urgency" ↔ q2 "sort" = "urgency") →
      normDirection (q1 "direction") = normDirection (q2 "direction") →
      (listPlan q1).query = (listPlan q2).query := by
    intro q1 q2 hf hsort hurg hdir
    obtain ⟨e1, e2⟩ := buildFilters_shape q1 q2 hf
    unfold listPlan
    simp only [e1, e2, orderClause_shape _ _ _ _ hsort hurg hdir]
  refine ⟨?_, sharp, fun q => normDirection_cases _, listPlan_args⟩
  intro q1 q2 hf hs hd
  exact sharp q1 q2 hf (fun _ => hs) (by rw [hs]) (by rw [hd])

/-- C6, at two requests of one shape: a status filter, sort=answer, and the
directions asc and ASC; the second carries a quote and SQL in its filter value. -/
theorem query_text_injection_safe_witness :
    (listPlan qDrafts).query = (listPlan qClosed).query :=
  query_text_injection_safe.2.1 qDrafts qClosed (by decide) (by decide) (by decide) (by decide)

/-- C7, as stated, fails: for the question filter `_` the bound argument is
`%_%`, which the record f1 passes, though its question holds no `_`. -/
theorem listPlan_filters_counterexample :
    (listPlan qUnderscore).args = [Arg.str "%_%", Arg.int 10, Arg.int 0] ∧
    rowSatisfies rowOne "question" "%_%" = true ∧
    ¬ rowContains rowOne "question" "_" := by
  refine ⟨by decide, by decide, ?_⟩
  rintro ⟨text, ht, hc⟩
  have e : text = "How are you?" := by
    have h0 : fieldText rowOne "question" = some "How are you?" := by decide
    rw [h0] at ht
    exact (Option.some.inj ht).symm
  subst e
  revert hc
  unfold containsFold
  decide

/-- C7, amended: the plan has one predicate per filter parameter with a
non-empty value, in the order question, answer, urgency, status, each
`<field> ILIKE $k` with k running from 1 to n and the k-th bound argument
%value%; they are joined by AND, and there is no WHERE clause when n = 0; LIMIT
and OFFSET use $n+1 and $n+2, bound to the effective limit and the offset, so
there are n+2 arguments. A record passes such a predicate exactly when its
field holds the value as case-insensitive substring, provided the value holds
none of the characters %, _ and backslash, which ILIKE reads as wildcards and
escape. -/
theorem listPlan_filters (q : String → String) :
    (activeFilters q).map Prod.fst = filterFields.filter (fun f => q f ≠ "") ∧
    (∀ p ∈ activeFilters q, p.2 = q p.1) ∧
    (buildFilters q).filters =
      (activeFilters q).enum.map (fun p => p.2.1 ++ " ILIKE $" ++ Itoa ((p.1 : Int) + 1)) ∧
    (listPlan q).query =
      "\n\t\t\tSELECT id, question, answer, urgency, status, created_at, updated_at\n\t\t\tFROM forms\n\t\t\t"
        ++ (if (activeFilters q).length = 0 then ""
            else "WHERE " ++ " AND ".intercalate (buildFilters q).filters)
        ++ "\n\t\t\t" ++ orderClause (q "sort") (q "direction")
        ++ "\n\t\t\tLIMIT $" ++ Itoa (((activeFilters q).length : Int) + 1)
        ++ " OFFSET $" ++ Itoa (((activeFilters q).length : Int) + 2) ∧
    (listPlan q).args =
      (activeFilters q).map (fun p => Arg.str ("%" ++ p.2 ++ "%")) ++
        [Arg.int (paging q).limit, Arg.int (paging q).offset] ∧
    (listPlan q).args.length = (activeFilters q).length + 2 ∧
    (∀ (row : Form) (field value : String), (∀ c ∈ value.data, likeSpecial c = false) →
      (rowSatisfies row field ("%" ++ value ++ "%") = true ↔ rowContains row field value)) := by
  refine ⟨?_, ?_, ?_, ?_, listPlan_args q, ?_, ?_⟩
  · unfold activeFilters
    rw [List.filter_map, List.map_map]
    simp [Function.comp_def]
  · intro p hp
    unfold activeFilters at hp
    obtain ⟨hp1, _⟩ := List.mem_filter.1 hp
    obtain ⟨f, _, rfl⟩ := List.mem_map.1 hp1
    rfl
  · rw [buildFilters_eq]
  · have hlen : (buildFilters q).filters.length = (activeFilters q).length := by
      rw [buildFilters_eq]; simp
    have hi : (buildFilters q).i = ((activeFilters q).length : Int) + 1 := by
      rw [buildFilters_eq]
    unfold listPlan queryText whereClause
    simp only [hlen, hi]
    have hadd : ((activeFilters q).length : Int) + 1 + 1 = ((activeFilters q).length : Int) + 2 := by
      ring
    rw [hadd]
    by_cases h0 : (activeFilters q).length = 0
    · simp [h0]
    · have hpos : (activeFilters q).length > 0 := Nat.pos_of_ne_zero h0
      simp [h0, hpos]
  · rw [listPlan_args]
    simp
  · intro row field value hv
    unfold rowSatisfies rowContains
    cases hft : fieldText row field with
    | none => simp
    | some text =>
        simp only [Option.some.injEq, exists_eq_left']
        exact ilike_wrapped text value hv

/-- C7 amended, at a request with a status filter and the record f1: the filter
value draft has no wildcard and the record passes the predicate. -/
theorem listPlan_filters_witness :
    rowSatisfies rowOne "status" ("%" ++ "draft" ++ "%") = true ↔
      rowContains rowOne "status" "draft" :=
  (listPlan_filters qDrafts).2.2.2.2.2.2 rowOne "status" "draft" (by decide)

end Forms
